import Mathlib

/-!
# MCP23X17 IO expander driver: registers, bit mutation and pin/port API

A shallow embedding of `IOExpanderMCP23X17.h` / `IOExpanderMCP23X17.cpp`.

* `unsigned char` values are natural numbers; every conversion to
  `unsigned char` the C++ code performs is an explicit `% 256`, and the
  promoted `int` operand `~mask` is the 32-bit pattern `2 ^ 32 - 1 - mask`.
* `exit(1)` is the `Outcome.exited` result, which keeps the state reached
  when the process stops.
* The two-wire transport (`Wire.h`) is an external collaborator; it is
  modelled together with one chip sitting behind it.
-/

namespace MCP23X17

/-! ## Enumerations of `IOExpanderMCP23X17.h` -/

/-- The `enum Register` of the driver class. -/
inductive Register where
  | IODIRA | IODIRB
  | IPOLA | IPOLB
  | GPINTENA | GPINTENB
  | DEFVALA | DEFVALB
  | INTCONA | INTCONB
  | IOCON
  | GPPUA | GPPUB
  | INTFA | INTFB
  | INTCAPA | INTCAPB
  | GPIOA | GPIOB
  | OLATA | OLATB
  deriving DecidableEq, Repr

open Register

/-- The enumerator values of `enum Register`; this is also the cast
`(unsigned char) reg` used when a register is put on the bus. -/
def Register.val : Register → Nat
  | IODIRA => 0x00
  | IODIRB => 0x01
  | IPOLA => 0x02
  | IPOLB => 0x03
  | GPINTENA => 0x04
  | GPINTENB => 0x05
  | DEFVALA => 0x06
  | DEFVALB => 0x07
  | INTCONA => 0x08
  | INTCONB => 0x09
  | IOCON => 0x0a
  | GPPUA => 0x0c
  | GPPUB => 0x0d
  | INTFA => 0x0e
  | INTFB => 0x0f
  | INTCAPA => 0x10
  | INTCAPB => 0x11
  | GPIOA => 0x12
  | GPIOB => 0x13
  | OLATA => 0x14
  | OLATB => 0x15

/-- All enumerators of `enum Register`, in declaration order. -/
def Register.all : List Register :=
  [IODIRA, IODIRB, IPOLA, IPOLB, GPINTENA, GPINTENB, DEFVALA, DEFVALB,
   INTCONA, INTCONB, IOCON, GPPUA, GPPUB, INTFA, INTFB, INTCAPA, INTCAPB,
   GPIOA, GPIOB, OLATA, OLATB]

/-- The `enum Port` of the driver class. -/
inductive Port where
  | PORT_A | PORT_B
  deriving DecidableEq, Repr

open Port

/-- The enumerator values of `enum Port`: `PORT_A = GPIOA, PORT_B = GPIOB`. -/
def Port.val : Port → Nat
  | PORT_A => GPIOA.val
  | PORT_B => GPIOB.val

/-- The cast `(Register) port` of `portWrite` / `portRead`: the register
enumerator with the same value. -/
def Port.toRegister : Port → Register
  | PORT_A => GPIOA
  | PORT_B => GPIOB

/-! ## Pin and port to register macros -/

/-- `IO_EXP_PIN_TO_GPIO_REG(p)`: `((p) < 8 ? GPIOA : GPIOB)`. -/
def IO_EXP_PIN_TO_GPIO_REG (p : Nat) : Register :=
  if p < 8 then GPIOA else GPIOB

/-- `IO_EXP_PIN_TO_IODIR_REG(p)`: `((p) < 8 ? IODIRA : IODIRB)`. -/
def IO_EXP_PIN_TO_IODIR_REG (p : Nat) : Register :=
  if p < 8 then IODIRA else IODIRB

/-- `IO_EXP_PORT_TO_IODIR_REG(p)`: `((p) == PORT_A ? IODIRA : IODIRB)`. -/
def IO_EXP_PORT_TO_IODIR_REG (p : Port) : Register :=
  if p = PORT_A then IODIRA else IODIRB

/-- `IO_EXP_PIN_TO_GPPU_REG(p)`: `((p) < 8 ? GPPUA : GPPUB)`. -/
def IO_EXP_PIN_TO_GPPU_REG (p : Nat) : Register :=
  if p < 8 then GPPUA else GPPUB

/-- `IO_EXP_PIN_TO_IPOL_REG(p)`: `((p) < 8 ? IPOLA : IPOLB)`. -/
def IO_EXP_PIN_TO_IPOL_REG (p : Nat) : Register :=
  if p < 8 then IPOLA else IPOLB

/-- `IO_EXP_PIN_TO_GPINTEN_REG(p)`: `((p) < 8 ? GPINTENA : GPINTENB)`. -/
def IO_EXP_PIN_TO_GPINTEN_REG (p : Nat) : Register :=
  if p < 8 then GPINTENA else GPINTENB

/-! ## The bus transport and the chip behind it -/

/-- One call made on the transport, with what the transport answered. -/
inductive WireEvent where
  | begin
  | beginTransmission (address : Nat)
  | write (bytes : List Nat) (accepted : Nat)
  | endTransmission
  | requestFrom (address : Nat) (quantity : Nat)
  | available (answer : Bool)
  | read (byte : Nat)
  deriving DecidableEq, Repr

/-- One access to a register of the chip, as the chip sees it. -/
inductive Access where
  | store (offset : Nat) (byte : Nat)
  | load (offset : Nat) (byte : Nat)
  deriving DecidableEq, Repr

/-- Modelled from the spec: the Bus Transport (`Wire.h`, an external
collaborator whose code is not part of the sources) together with the single
expander chip behind it. The chip's registers are "the single source of
truth": a register returns its content on read and stores what is written.

* `regs` is the register file of the chip, by register offset;
* `pointer` is the chip's register address pointer, set by the first byte of
  every write transmission;
* `trace` lists the register accesses the chip has served;
* `tx` holds the bytes queued since `beginTransmission`, `rx` the bytes
  received by `requestFrom` and not yet read;
* `busy` is the number of `available()` polls that still answer "nothing";
* `faults` scripts what the next `write` calls report as accepted byte
  count (when it is empty every byte is accepted);
* `log` lists the calls made on the transport. -/
structure Wire where
  regs : Nat → Nat
  pointer : Nat
  trace : List Access
  tx : List Nat
  rx : List Nat
  busy : Nat
  faults : List Nat
  log : List WireEvent

/-- Modelled from the spec: what the chip (not part of the sources) does with
the payload of one write transmission: the first
byte loads the address pointer, every further byte is stored at the pointer,
which then advances. -/
def Wire.storeBytes (w : Wire) : List Nat → Wire
  | [] => w
  | b :: bs =>
    Wire.storeBytes
      { w with
        regs := fun r => if r = w.pointer then b else w.regs r
        pointer := w.pointer + 1
        trace := w.trace ++ [Access.store w.pointer b] } bs

/-- Modelled from the spec: delivery of a write transmission to the chip (not
part of the sources). -/
def Wire.deliver (w : Wire) : List Nat → Wire
  | [] => w
  | r :: bs => Wire.storeBytes { w with pointer := r } bs

/-- Modelled from the spec: what the chip (not part of the sources) sends
back for a read of `n` bytes: the register at the pointer, which then
advances. -/
def Wire.loadBytes (w : Wire) : Nat → Wire
  | 0 => w
  | n + 1 =>
    Wire.loadBytes
      { w with
        rx := w.rx ++ [w.regs w.pointer]
        pointer := w.pointer + 1
        trace := w.trace ++ [Access.load w.pointer (w.regs w.pointer)] } n

/-- Modelled from the spec: `wire->begin()` of the external transport. -/
def Wire.begin (w : Wire) : Wire :=
  { w with log := w.log ++ [WireEvent.begin] }

/-- Modelled from the spec: `wire->beginTransmission(address)` of the
external transport, which opens a write frame. -/
def Wire.beginTransmission (w : Wire) (address : Nat) : Wire :=
  { w with tx := [], log := w.log ++ [WireEvent.beginTransmission address] }

/-- Modelled from the spec: `wire->write(buf, len)` and `wire->write(byte)`
of the external transport, which queue the bytes and return the number of
bytes accepted. -/
def Wire.write (w : Wire) (bytes : List Nat) : Nat × Wire :=
  match w.faults with
  | [] =>
    (bytes.length,
      { w with
        tx := w.tx ++ bytes
        log := w.log ++ [WireEvent.write bytes bytes.length] })
  | c :: rest =>
    (c,
      { w with
        tx := w.tx ++ bytes.take c
        faults := rest
        log := w.log ++ [WireEvent.write bytes c] })

/-- Modelled from the spec: `wire->endTransmission()` of the external
transport, which closes the frame; the chip receives the queued bytes. -/
def Wire.endTransmission (w : Wire) : Wire :=
  let w1 := Wire.deliver w w.tx
  { w1 with tx := [], log := w1.log ++ [WireEvent.endTransmission] }

/-- Modelled from the spec: `wire->requestFrom(address, quantity)` of the
external transport; the chip sends `quantity` bytes. -/
def Wire.requestFrom (w : Wire) (address quantity : Nat) : Wire :=
  let w1 := Wire.loadBytes w quantity
  { w1 with log := w1.log ++ [WireEvent.requestFrom address quantity] }

/-- Modelled from the spec: `wire->available()` of the external transport,
which answers false for the first `busy` polls. -/
def Wire.available (w : Wire) : Bool × Wire :=
  match w.busy with
  | 0 => (true, { w with log := w.log ++ [WireEvent.available true] })
  | k + 1 =>
    (false, { w with busy := k, log := w.log ++ [WireEvent.available false] })

/-- Modelled from the spec: `wire->read()` of the external transport, which
takes the next received byte (`-1` when there is none, which is `0xff` as an
`unsigned char`). -/
def Wire.read (w : Wire) : Nat × Wire :=
  match w.rx with
  | [] => (0xff, { w with log := w.log ++ [WireEvent.read 0xff] })
  | b :: rest => (b, { w with rx := rest, log := w.log ++ [WireEvent.read b] })

/-- The loop `while(!wire->available());` run for at most `fuel` polls. -/
def Wire.awaitAvailable : Nat → Wire → Wire
  | 0, w => w
  | fuel + 1, w =>
    match Wire.available w with
    | (true, w1) => w1
    | (false, w1) => Wire.awaitAvailable fuel w1

/-! ## The driver class -/

/-- The state of an `IOExpanderMCP23X17` object: its `device` field (the bus
address) and the transport its `wire` pointer refers to. -/
structure IOExpanderMCP23X17 where
  device : Nat
  wire : Wire

/-- The result of a member function: it returns `val` in state `s`, or the
process stops in `exit(status)` with the object in state `s`. -/
inductive Outcome (α : Type) where
  | returned (val : α) (s : IOExpanderMCP23X17)
  | exited (status : Nat) (s : IOExpanderMCP23X17)

/-- The state in which a call ended. -/
def Outcome.state {α : Type} : Outcome α → IOExpanderMCP23X17
  | Outcome.returned _ s => s
  | Outcome.exited _ s => s

/-- The value a call returned, if it returned. -/
def Outcome.value? {α : Type} : Outcome α → Option α
  | Outcome.returned v _ => some v
  | Outcome.exited _ _ => none

/-- Sequencing of two calls: the second runs only if the first returned. -/
def Outcome.andThen {α β : Type} (o : Outcome α)
    (f : α → IOExpanderMCP23X17 → Outcome β) : Outcome β :=
  match o with
  | Outcome.returned v s => f v s
  | Outcome.exited c s => Outcome.exited c s

/-- The constructor `IOExpanderMCP23X17(Wire *wire)`: `device = 0x20`. -/
def IOExpanderMCP23X17.new (wire : Wire) : IOExpanderMCP23X17 :=
  { device := 0x20, wire := wire }

/-- The member `begin(unsigned char device)`:
`this->device |= device & 0x07; wire->begin();`. -/
def IOExpanderMCP23X17.begin (s : IOExpanderMCP23X17) (device : Nat) :
    IOExpanderMCP23X17 :=
  { device := (s.device ||| (device &&& 0x07)) % 256
    wire := Wire.begin s.wire }

/-- The member `writeRegister(Register reg, unsigned char v)`. -/
def IOExpanderMCP23X17.writeRegister (s : IOExpanderMCP23X17) (reg : Register)
    (v : Nat) : Outcome Unit :=
  let buf : List Nat := [reg.val % 256, v]
  let w1 := Wire.beginTransmission s.wire s.device
  match Wire.write w1 buf with
  | (n, w2) =>
    if n ≠ 2 then
      Outcome.exited 1 { s with wire := w2 }
    else
      Outcome.returned () { s with wire := Wire.endTransmission w2 }

/-- The member `readRegister(Register reg)`. The wait loop gets
`busy + 1` polls, which the modelled transport never exhausts. -/
def IOExpanderMCP23X17.readRegister (s : IOExpanderMCP23X17) (reg : Register) :
    Outcome Nat :=
  let w1 := Wire.beginTransmission s.wire s.device
  match Wire.write w1 [reg.val % 256] with
  | (n, w2) =>
    if n ≠ 1 then
      Outcome.exited 1 { s with wire := w2 }
    else
      let w3 := Wire.endTransmission w2
      let w4 := Wire.requestFrom w3 s.device 1
      let w5 := Wire.awaitAvailable (w4.busy + 1) w4
      match Wire.read w5 with
      | (b, w6) => Outcome.returned (b % 256) { s with wire := w6 }

/-- The member `configureRegisterBits(Register reg, unsigned char mask,
unsigned char v)`: `n = readRegister(reg); n &= ~(mask); n |= v & mask;
writeRegister(reg, n);`. -/
def IOExpanderMCP23X17.configureRegisterBits (s : IOExpanderMCP23X17)
    (reg : Register) (mask v : Nat) : Outcome Unit :=
  (IOExpanderMCP23X17.readRegister s reg).andThen fun n s1 =>
    let n1 := (n &&& (2 ^ 32 - 1 - mask)) % 256
    let n2 := (n1 ||| (v &&& mask)) % 256
    IOExpanderMCP23X17.writeRegister s1 reg n2

/-- The member `pinMode(unsigned char pin, bool mode)`. -/
def IOExpanderMCP23X17.pinMode (s : IOExpanderMCP23X17) (pin : Nat)
    (mode : Bool) : Outcome Unit :=
  let reg := IO_EXP_PIN_TO_IODIR_REG pin
  IOExpanderMCP23X17.configureRegisterBits s reg ((1 <<< (pin % 8)) % 256)
    (if mode then 0xff else 0x00)

/-- The member `portMode(Port port, unsigned char mode)`. -/
def IOExpanderMCP23X17.portMode (s : IOExpanderMCP23X17) (port : Port)
    (mode : Nat) : Outcome Unit :=
  let reg := IO_EXP_PORT_TO_IODIR_REG port
  IOExpanderMCP23X17.writeRegister s reg mode

/-- The member `digitalWrite(unsigned char pin, bool value)`. -/
def IOExpanderMCP23X17.digitalWrite (s : IOExpanderMCP23X17) (pin : Nat)
    (value : Bool) : Outcome Unit :=
  let reg := IO_EXP_PIN_TO_GPIO_REG pin
  IOExpanderMCP23X17.configureRegisterBits s reg ((1 <<< (pin % 8)) % 256)
    (if value then 0xff else 0x00)

/-- The member `digitalRead(unsigned char pin)`:
`(bool) (readRegister(reg) & (1 << (pin % 8)))`. -/
def IOExpanderMCP23X17.digitalRead (s : IOExpanderMCP23X17) (pin : Nat) :
    Outcome Bool :=
  let reg := IO_EXP_PIN_TO_GPIO_REG pin
  (IOExpanderMCP23X17.readRegister s reg).andThen fun n s1 =>
    Outcome.returned (decide ((n &&& (1 <<< (pin % 8))) ≠ 0)) s1

/-- The inline member `portWrite(Port port, unsigned char value)`. -/
def IOExpanderMCP23X17.portWrite (s : IOExpanderMCP23X17) (port : Port)
    (value : Nat) : Outcome Unit :=
  IOExpanderMCP23X17.writeRegister s port.toRegister value

/-- The inline member `portRead(Port port)`. -/
def IOExpanderMCP23X17.portRead (s : IOExpanderMCP23X17) (port : Port) :
    Outcome Nat :=
  IOExpanderMCP23X17.readRegister s port.toRegister

/-- The member `setPinPullUp(unsigned char pin, bool pullUp)`. -/
def IOExpanderMCP23X17.setPinPullUp (s : IOExpanderMCP23X17) (pin : Nat)
    (pullUp : Bool) : Outcome Unit :=
  let reg := IO_EXP_PIN_TO_GPPU_REG pin
  IOExpanderMCP23X17.configureRegisterBits s reg ((1 <<< (pin % 8)) % 256)
    (if pullUp then 0xff else 0x00)

/-- The member `setPinPolarity(unsigned char pin, bool polarity)`. -/
def IOExpanderMCP23X17.setPinPolarity (s : IOExpanderMCP23X17) (pin : Nat)
    (polarity : Bool) : Outcome Unit :=
  let reg := IO_EXP_PIN_TO_IPOL_REG pin
  IOExpanderMCP23X17.configureRegisterBits s reg ((1 <<< (pin % 8)) % 256)
    (if polarity then 0xff else 0x00)

/-- The member `setPinInterrupt(unsigned char pin, bool interrupt)`. -/
def IOExpanderMCP23X17.setPinInterrupt (s : IOExpanderMCP23X17) (pin : Nat)
    (interrupt : Bool) : Outcome Unit :=
  let reg := IO_EXP_PIN_TO_GPINTEN_REG pin
  IOExpanderMCP23X17.configureRegisterBits s reg ((1 <<< (pin % 8)) % 256)
    (if interrupt then 0xff else 0x00)

/-- A transport at rest: no fault is scripted for the coming `write` calls
and no received byte is waiting to be read. -/
def Wire.Ready (w : Wire) : Prop :=
  w.faults = [] ∧ w.rx = []

/-- The transport after the chip has stored `v` at offset `r` in a frame
addressed to `d`. -/
def Wire.stored (w : Wire) (d r v : Nat) : Wire :=
  { regs := fun x => if x = r then v else w.regs x
    pointer := r + 1
    trace := w.trace ++ [Access.store r v]
    tx := []
    rx := w.rx
    busy := w.busy
    faults := w.faults
    log := w.log ++ [WireEvent.beginTransmission d, WireEvent.write [r, v] 2,
      WireEvent.endTransmission] }

/-- The transport after the chip has been asked for the register at offset
`r` through address `d` and the byte has been read. -/
def Wire.loaded (w : Wire) (d r : Nat) : Wire :=
  { regs := w.regs
    pointer := r + 1
    trace := w.trace ++ [Access.load r (w.regs r)]
    tx := []
    rx := []
    busy := 0
    faults := w.faults
    log := w.log ++ [WireEvent.beginTransmission d, WireEvent.write [r] 1,
      WireEvent.endTransmission, WireEvent.requestFrom d 1]
      ++ List.replicate w.busy (WireEvent.available false)
      ++ [WireEvent.available true, WireEvent.read (w.regs r)] }

/-- The byte `configureRegisterBits` writes back when it has read `n`:
the value of `n` after `n &= ~(mask); n |= v & mask;`. -/
def mergedByte (n mask v : Nat) : Nat :=
  (((n &&& (2 ^ 32 - 1 - mask)) % 256) ||| (v &&& mask)) % 256

/-- A sample transport at rest: `GPIOA` holds `0x5a`, `GPIOB` holds `0xc3`,
every other register holds zero, and the first two polls of `available()`
find nothing. -/
def sampleWire : Wire :=
  { regs := fun r => if r = 0x12 then 0x5a else if r = 0x13 then 0xc3 else 0
    pointer := 0
    trace := []
    tx := []
    rx := []
    busy := 2
    faults := []
    log := [] }

/-- The transport of the scenario of the spec: `IODIRA` holds `0x08` and
`GPIOA` holds `0xff`; every other register holds zero. -/
def scenarioWire : Wire :=
  { regs := fun r => if r = 0x00 then 0x08 else if r = 0x12 then 0xff else 0
    pointer := 0
    trace := []
    tx := []
    rx := []
    busy := 0
    faults := []
    log := [] }

/-- The offset of the register an access is made to. -/
def Access.offset : Access → Nat
  | Access.store r _ => r
  | Access.load r _ => r

/-- The call `o`, started in state `s`, returned, the chip served at least
one register access during the call, and each access it served was to the
register at offset `r`. -/
def Outcome.AccessesOnly {α : Type} (o : Outcome α) (s : IOExpanderMCP23X17)
    (r : Nat) : Prop :=
  ∃ v s1 added, o = Outcome.returned v s1 ∧
    s1.wire.trace = s.wire.trace ++ added ∧ added ≠ [] ∧
    ∀ a ∈ added, a.offset = r

/-- A sample driver object on the sample transport, at address `0x20`. -/
def sampleExpander : IOExpanderMCP23X17 :=
  IOExpanderMCP23X17.new sampleWire

/-- The frame condition of a pin-level setter: the call `o`, started in
state `s`, returned, every register other than the one at offset `r` holds
what it held before, and so does each of the eight bits of `r` other than
`bit`. -/
def Outcome.ChangesAtMostBit (o : Outcome Unit) (s : IOExpanderMCP23X17)
    (r bit : Nat) : Prop :=
  ∃ s1, o = Outcome.returned () s1 ∧
    (∀ x, x ≠ r → s1.wire.regs x = s.wire.regs x) ∧
    ∀ i, i < 8 → i ≠ bit → (s1.wire.regs r).testBit i = (s.wire.regs r).testBit i

/-- The byte count the transport will report for its next `write` call when
that call is given `len` bytes: the head of the fault script, or `len` when
nothing is scripted. -/
def Wire.nextAccepted (w : Wire) (len : Nat) : Nat :=
  match w.faults with
  | [] => len
  | c :: _ => c

/-- The outcome of a pin-level feature setter: the call `o`, started in state
`s`, returned, bit `bit` of the register at offset `r` equals `e`, every
other register holds what it held before, and the chip served one load and
one store, both at `r`. -/
def Outcome.SetsPinBit (o : Outcome Unit) (s : IOExpanderMCP23X17)
    (r bit : Nat) (e : Bool) : Prop :=
  ∃ s1, o = Outcome.returned () s1 ∧
    (s1.wire.regs r).testBit bit = e ∧
    (∀ x, x ≠ r → s1.wire.regs x = s.wire.regs x) ∧
    s1.wire.trace = s.wire.trace ++
      [Access.load r (s.wire.regs r), Access.store r (s1.wire.regs r)]

/-- A sample transport whose next `write` call accepts a single byte; its
registers are those of the sample transport. -/
def shortWriteWire : Wire :=
  { sampleWire with faults := [1] }

/-- A sample transport whose next `write` call accepts nothing; its registers
are those of the sample transport. -/
def deafWire : Wire :=
  { sampleWire with faults := [0] }

/-- A sample transport whose first `write` call accepts its single byte and
whose second `write` call accepts only one byte of two; its registers are
those of the sample transport. -/
def lateFaultWire : Wire :=
  { sampleWire with faults := [1, 1] }

/-- The call `o`, started in state `s`, returned after the chip served
exactly one load followed by exactly one store, both at offset `r`; and when
bit `bit` of the 8-bit content of `r` already equals `e`, the store still
takes place and writes the unchanged byte back. -/
def Outcome.ReadsThenWrites (o : Outcome Unit) (s : IOExpanderMCP23X17)
    (r bit : Nat) (e : Bool) : Prop :=
  ∃ s1 n1, o = Outcome.returned () s1 ∧
    s1.wire.trace = s.wire.trace ++
      [Access.load r (s.wire.regs r), Access.store r n1] ∧
    ((s.wire.regs r).testBit bit = e → s.wire.regs r < 256 → n1 = s.wire.regs r)

/-- The call `o`, started in state `s`, returned after the chip served
exactly one load, at offset `r`, and no store; the register file is as it
was. -/
def Outcome.ReadsOnce {α : Type} (o : Outcome α) (s : IOExpanderMCP23X17)
    (r : Nat) : Prop :=
  ∃ v s1, o = Outcome.returned v s1 ∧
    s1.wire.trace = s.wire.trace ++ [Access.load r (s.wire.regs r)] ∧
    s1.wire.regs = s.wire.regs

/-- The calls `begin(s1); ...; begin(sk)` made one after the other on the
same object. -/
def IOExpanderMCP23X17.beginAll (s : IOExpanderMCP23X17) (selectors : List Nat) :
    IOExpanderMCP23X17 :=
  selectors.foldl IOExpanderMCP23X17.begin s

/-! ## Basic facts about the transport and the two register primitives -/

theorem Register.val_lt (reg : Register) : reg.val < 256 := by
  cases reg <;> decide

theorem Register.val_mod (reg : Register) : reg.val % 256 = reg.val :=
  Nat.mod_eq_of_lt reg.val_lt

theorem Wire.awaitAvailable_step (fuel k : Nat) (w : Wire) (h : w.busy = k + 1) :
    Wire.awaitAvailable (fuel + 1) w =
      Wire.awaitAvailable fuel
        { w with busy := k, log := w.log ++ [WireEvent.available false] } := by
  cases w
  simp only at h
  subst h
  rfl

theorem Wire.awaitAvailable_busy (k : Nat) :
    ∀ w : Wire, w.busy = k →
      Wire.awaitAvailable (k + 1) w =
        { w with
          busy := 0
          log := w.log ++ List.replicate k (WireEvent.available false)
            ++ [WireEvent.available true] } := by
  induction k with
  | zero =>
    intro w h
    cases w
    simp only at h
    subst h
    simp [Wire.awaitAvailable, Wire.available]
  | succ k ih =>
    intro w h
    rw [Wire.awaitAvailable_step (k + 1) k w h, ih _ rfl]
    simp [List.replicate_succ]

theorem writeRegister_ready (s : IOExpanderMCP23X17) (reg : Register) (v : Nat)
    (h : s.wire.faults = []) :
    s.writeRegister reg v =
      Outcome.returned () { s with wire := s.wire.stored s.device reg.val v } := by
  cases s with
  | mk d w =>
    cases w
    simp only at h
    subst h
    simp [IOExpanderMCP23X17.writeRegister, Wire.beginTransmission, Wire.write,
      Wire.endTransmission, Wire.deliver, Wire.storeBytes, Wire.stored, Register.val_mod]

theorem readRegister_ready (s : IOExpanderMCP23X17) (reg : Register)
    (h : s.wire.Ready) :
    s.readRegister reg =
      Outcome.returned (s.wire.regs reg.val % 256)
        { s with wire := s.wire.loaded s.device reg.val } := by
  cases s with
  | mk d w =>
    cases w
    obtain ⟨h1, h2⟩ := h
    simp only at h1 h2
    subst h1 h2
    simp [IOExpanderMCP23X17.readRegister, Wire.beginTransmission, Wire.write,
      Wire.endTransmission, Wire.deliver, Wire.storeBytes, Wire.requestFrom,
      Wire.loadBytes, Wire.awaitAvailable_busy, Wire.read, Wire.loaded, Register.val_mod]

theorem testBit_of_lt_256 (x i : Nat) (hx : x < 256) (hi : 8 ≤ i) :
    x.testBit i = false := by
  apply Nat.testBit_lt_two_pow
  calc x < 2 ^ 8 := hx
    _ ≤ 2 ^ i := Nat.pow_le_pow_right (by decide) hi

theorem testBit_not32 (mask i : Nat) (hmask : mask < 256) :
    (2 ^ 32 - 1 - mask).testBit i = (decide (i < 32) && !mask.testBit i) := by
  have h : mask < 2 ^ 32 := by omega
  rw [Nat.sub_sub, Nat.add_comm 1 mask]
  exact Nat.testBit_two_pow_sub_succ h i

theorem mergedByte_testBit (n mask v i : Nat) (hmask : mask < 256) :
    (mergedByte (n % 256) mask v).testBit i =
      (decide (i < 8) && (if mask.testBit i then v.testBit i else n.testBit i)) := by
  have h256 : (256 : Nat) = 2 ^ 8 := rfl
  unfold mergedByte
  rw [h256]
  simp only [Nat.testBit_mod_two_pow, Nat.testBit_or, Nat.testBit_and]
  rw [testBit_not32 mask i hmask]
  by_cases hi : i < 8
  · have : i < 32 := by omega
    cases hm : mask.testBit i <;> simp [hi, this]
  · simp [hi]

theorem mergedByte_lt (n mask v : Nat) : mergedByte n mask v < 256 :=
  Nat.mod_lt _ (by decide)

theorem configureRegisterBits_ready (s : IOExpanderMCP23X17) (reg : Register)
    (mask v : Nat) (h : s.wire.Ready) :
    s.configureRegisterBits reg mask v =
      Outcome.returned ()
        { s with
          wire := (s.wire.loaded s.device reg.val).stored s.device reg.val
            (mergedByte (s.wire.regs reg.val % 256) mask v) } := by
  unfold IOExpanderMCP23X17.configureRegisterBits
  rw [readRegister_ready s reg h]
  simp only [Outcome.andThen]
  rw [writeRegister_ready { s with wire := s.wire.loaded s.device reg.val } reg _ h.1]
  rfl

theorem pinMask_eq (p : Nat) : (1 <<< (p % 8)) % 256 = 2 ^ (p % 8) := by
  rw [Nat.one_shiftLeft]
  apply Nat.mod_eq_of_lt
  have h : p % 8 < 8 := Nat.mod_lt _ (by decide)
  calc 2 ^ (p % 8) < 2 ^ 8 := Nat.pow_lt_pow_right (by decide) h
    _ = 256 := rfl

theorem pinMask_lt (p : Nat) : 2 ^ (p % 8) < 256 := by
  have h : p % 8 < 8 := Nat.mod_lt _ (by decide)
  calc 2 ^ (p % 8) < 2 ^ 8 := Nat.pow_lt_pow_right (by decide) h
    _ = 256 := rfl

theorem and_two_pow_ne_zero (n k : Nat) :
    decide ((n &&& 2 ^ k) ≠ 0) = n.testBit k := by
  cases h : n.testBit k with
  | false =>
    have h0 : n &&& 2 ^ k = 0 := by
      apply Nat.eq_of_testBit_eq
      intro i
      rw [Nat.testBit_and, Nat.testBit_two_pow, Nat.zero_testBit]
      by_cases hk : k = i
      · subst hk
        simp [h]
      · simp [hk]
    simp [h0]
  | true =>
    have h1 : n &&& 2 ^ k ≠ 0 := by
      intro h0
      have hb : (n &&& 2 ^ k).testBit k = true := by
        rw [Nat.testBit_and, Nat.testBit_two_pow_self, h]
        rfl
      rw [h0, Nat.zero_testBit] at hb
      exact Bool.false_ne_true hb
    simp [h1]

theorem flag_testBit (b : Bool) (i : Nat) (hi : i < 8) :
    (if b then (0xff : Nat) else 0x00).testBit i = b := by
  cases b
  · simp
  · have h255 : (0xff : Nat) = 2 ^ 8 - 1 := rfl
    simp only [if_true]
    rw [h255, Nat.testBit_two_pow_sub_one]
    simp [hi]

theorem configureRegisterBits_pin (s : IOExpanderMCP23X17) (reg : Register)
    (p : Nat) (b : Bool) (h : s.wire.Ready) :
    ∃ s1, s.configureRegisterBits reg ((1 <<< (p % 8)) % 256)
        (if b then 0xff else 0x00) = Outcome.returned () s1 ∧
      s1.device = s.device ∧ s1.wire.Ready ∧
      (∀ x, x ≠ reg.val → s1.wire.regs x = s.wire.regs x) ∧
      (∀ i, i < 8 → i ≠ p % 8 →
        (s1.wire.regs reg.val).testBit i = (s.wire.regs reg.val).testBit i) ∧
      (s1.wire.regs reg.val).testBit (p % 8) = b ∧
      s1.wire.regs reg.val < 256 ∧
      s1.wire.trace = s.wire.trace ++
        [Access.load reg.val (s.wire.regs reg.val),
         Access.store reg.val (s1.wire.regs reg.val)] ∧
      s1.wire.regs reg.val =
        mergedByte (s.wire.regs reg.val % 256) (2 ^ (p % 8))
          (if b then 0xff else 0x00) := by
  have hp8 : p % 8 < 8 := Nat.mod_lt _ (by decide)
  have hreg : ∀ v : Nat, (if reg.val = reg.val then v else s.wire.regs reg.val) = v :=
    fun v => if_pos rfl
  refine ⟨_, configureRegisterBits_ready s reg _ _ h, rfl, ⟨h.1, rfl⟩,
    ?_, ?_, ?_, ?_, ?_, ?_⟩
  · intro x hx
    show (if x = reg.val then _ else s.wire.regs x) = s.wire.regs x
    rw [if_neg hx]
  · intro i hi hne
    show (if reg.val = reg.val then _ else s.wire.regs reg.val).testBit i = _
    rw [hreg, pinMask_eq, mergedByte_testBit _ _ _ _ (pinMask_lt p), Nat.testBit_two_pow]
    have : ¬ (p % 8 = i) := fun e => hne e.symm
    simp [hi, this]
  · show (if reg.val = reg.val then _ else s.wire.regs reg.val).testBit (p % 8) = _
    rw [hreg, pinMask_eq, mergedByte_testBit _ _ _ _ (pinMask_lt p), Nat.testBit_two_pow,
      flag_testBit b _ hp8]
    simp [hp8]
  · show (if reg.val = reg.val then _ else s.wire.regs reg.val) < 256
    rw [hreg]
    exact mergedByte_lt _ _ _
  · show s.wire.trace ++ [Access.load reg.val (s.wire.regs reg.val)] ++
        [Access.store reg.val _] =
      s.wire.trace ++ [Access.load reg.val (s.wire.regs reg.val),
        Access.store reg.val (if reg.val = reg.val then _ else s.wire.regs reg.val)]
    rw [hreg]
    simp
  · show (if reg.val = reg.val then _ else s.wire.regs reg.val) = _
    rw [hreg, pinMask_eq]

theorem digitalRead_ready (s : IOExpanderMCP23X17) (q : Nat) (h : s.wire.Ready) :
    s.digitalRead q =
      Outcome.returned ((s.wire.regs (IO_EXP_PIN_TO_GPIO_REG q).val).testBit (q % 8))
        { s with wire := s.wire.loaded s.device (IO_EXP_PIN_TO_GPIO_REG q).val } := by
  have hq8 : q % 8 < 8 := Nat.mod_lt _ (by decide)
  have h256 : (256 : Nat) = 2 ^ 8 := rfl
  unfold IOExpanderMCP23X17.digitalRead
  dsimp only
  rw [readRegister_ready s _ h]
  simp only [Outcome.andThen]
  rw [Nat.one_shiftLeft, and_two_pow_ne_zero, h256, Nat.testBit_mod_two_pow]
  simp [hq8]

theorem gpio_reg_cases (p q : Nat) (hp : p < 16) (hq : q < 16) (hne : q ≠ p) :
    (IO_EXP_PIN_TO_GPIO_REG q).val ≠ (IO_EXP_PIN_TO_GPIO_REG p).val ∨
      ((IO_EXP_PIN_TO_GPIO_REG q) = (IO_EXP_PIN_TO_GPIO_REG p) ∧ q % 8 ≠ p % 8) := by
  unfold IO_EXP_PIN_TO_GPIO_REG
  by_cases h1 : q < 8 <;> by_cases h2 : p < 8
  · right
    rw [if_pos h1, if_pos h2]
    exact ⟨rfl, by omega⟩
  · left
    rw [if_pos h1, if_neg h2]
    decide
  · left
    rw [if_neg h1, if_pos h2]
    decide
  · right
    rw [if_neg h1, if_neg h2]
    exact ⟨rfl, by omega⟩

theorem Wire.write_fst (w : Wire) (bytes : List Nat) :
    (Wire.write w bytes).1 = w.nextAccepted bytes.length := by
  cases w with
  | mk regs pointer trace tx rx busy faults log =>
    cases faults <;> rfl

theorem writeRegister_accepted (s : IOExpanderMCP23X17) (reg : Register) (v : Nat)
    (h : s.wire.nextAccepted 2 = 2) :
    s.writeRegister reg v =
      Outcome.returned ()
        { s with
          wire := { s.wire.stored s.device reg.val v with
            faults := s.wire.faults.tail } } := by
  cases s with
  | mk d w =>
    cases w with
    | mk regs pointer trace tx rx busy faults log =>
      cases faults with
      | nil =>
        simp [IOExpanderMCP23X17.writeRegister, Wire.beginTransmission, Wire.write,
          Wire.endTransmission, Wire.deliver, Wire.storeBytes, Wire.stored,
          Register.val_mod]
      | cons c rest =>
        have hc : c = 2 := h
        subst hc
        simp [IOExpanderMCP23X17.writeRegister, Wire.beginTransmission, Wire.write,
          Wire.endTransmission, Wire.deliver, Wire.storeBytes, Wire.stored,
          Register.val_mod]

theorem writeRegister_refused (s : IOExpanderMCP23X17) (reg : Register) (v : Nat)
    (h : s.wire.nextAccepted 2 ≠ 2) :
    s.writeRegister reg v =
      Outcome.exited 1
        { s with
          wire := { s.wire with
            tx := [reg.val, v].take (s.wire.nextAccepted 2)
            faults := s.wire.faults.tail
            log := s.wire.log ++ [WireEvent.beginTransmission s.device,
              WireEvent.write [reg.val, v] (s.wire.nextAccepted 2)] } } := by
  cases s with
  | mk d w =>
    cases w with
    | mk regs pointer trace tx rx busy faults log =>
      cases faults with
      | nil => exact absurd rfl h
      | cons c rest =>
        have hc : c ≠ 2 := h
        simp [IOExpanderMCP23X17.writeRegister, Wire.beginTransmission, Wire.write,
          Wire.nextAccepted, Register.val_mod, hc]

theorem readRegister_refused (s : IOExpanderMCP23X17) (reg : Register)
    (h : s.wire.nextAccepted 1 ≠ 1) :
    s.readRegister reg =
      Outcome.exited 1
        { s with
          wire := { s.wire with
            tx := [reg.val].take (s.wire.nextAccepted 1)
            faults := s.wire.faults.tail
            log := s.wire.log ++ [WireEvent.beginTransmission s.device,
              WireEvent.write [reg.val] (s.wire.nextAccepted 1)] } } := by
  cases s with
  | mk d w =>
    cases w with
    | mk regs pointer trace tx rx busy faults log =>
      cases faults with
      | nil => exact absurd rfl h
      | cons c rest =>
        have hc : c ≠ 1 := h
        simp [IOExpanderMCP23X17.readRegister, Wire.beginTransmission, Wire.write,
          Wire.nextAccepted, Register.val_mod, hc]

theorem readRegister_accepted (s : IOExpanderMCP23X17) (reg : Register)
    (h : s.wire.nextAccepted 1 = 1) (hrx : s.wire.rx = []) :
    s.readRegister reg =
      Outcome.returned (s.wire.regs reg.val % 256)
        { s with
          wire := { s.wire.loaded s.device reg.val with
            faults := s.wire.faults.tail } } := by
  cases s with
  | mk d w =>
    cases w with
    | mk regs pointer trace tx rx busy faults log =>
      simp only at hrx
      subst hrx
      cases faults with
      | nil =>
        simp [IOExpanderMCP23X17.readRegister, Wire.beginTransmission, Wire.write,
          Wire.endTransmission, Wire.deliver, Wire.storeBytes, Wire.requestFrom,
          Wire.loadBytes, Wire.awaitAvailable_busy, Wire.read, Wire.loaded,
          Register.val_mod]
      | cons c rest =>
        have hc : c = 1 := h
        subst hc
        simp [IOExpanderMCP23X17.readRegister, Wire.beginTransmission, Wire.write,
          Wire.endTransmission, Wire.deliver, Wire.storeBytes, Wire.requestFrom,
          Wire.loadBytes, Wire.awaitAvailable_busy, Wire.read, Wire.loaded,
          Register.val_mod]

theorem Wire.awaitAvailable_enough (k : Nat) :
    ∀ (fuel : Nat) (w : Wire), w.busy = k → k < fuel →
      Wire.awaitAvailable fuel w =
        { w with
          busy := 0
          log := w.log ++ List.replicate k (WireEvent.available false)
            ++ [WireEvent.available true] } := by
  induction k with
  | zero =>
    intro fuel w h hlt
    obtain ⟨f, rfl⟩ : ∃ f, fuel = f + 1 := ⟨fuel - 1, by omega⟩
    cases w
    simp only at h
    subst h
    simp [Wire.awaitAvailable, Wire.available]
  | succ k ih =>
    intro fuel w h hlt
    obtain ⟨f, rfl⟩ : ∃ f, fuel = f + 1 := ⟨fuel - 1, by omega⟩
    rw [Wire.awaitAvailable_step f k w h, ih f _ rfl (by omega)]
    simp [List.replicate_succ]

theorem readRegister_returns (s : IOExpanderMCP23X17) (reg : Register)
    (h : s.wire.nextAccepted 1 = 1) :
    ∃ v s1, s.readRegister reg = Outcome.returned v s1 := by
  cases s with
  | mk d w =>
    cases w with
    | mk regs pointer trace tx rx busy faults log =>
      cases faults with
      | nil => exact ⟨_, _, rfl⟩
      | cons c rest =>
        have hc : c = 1 := h
        subst hc
        exact ⟨_, _, rfl⟩

theorem configureRegisterBits_read_refused (s : IOExpanderMCP23X17)
    (reg : Register) (mask v : Nat) (h : s.wire.nextAccepted 1 ≠ 1) :
    s.configureRegisterBits reg mask v =
      Outcome.exited 1
        { s with
          wire := { s.wire with
            tx := [reg.val].take (s.wire.nextAccepted 1)
            faults := s.wire.faults.tail
            log := s.wire.log ++ [WireEvent.beginTransmission s.device,
              WireEvent.write [reg.val] (s.wire.nextAccepted 1)] } } := by
  unfold IOExpanderMCP23X17.configureRegisterBits
  rw [readRegister_refused s reg h]
  rfl

theorem configureRegisterBits_write_refused (s : IOExpanderMCP23X17)
    (reg : Register) (mask v c : Nat) (rest : List Nat)
    (hf : s.wire.faults = 1 :: c :: rest) (hc : c ≠ 2) (hrx : s.wire.rx = []) :
    s.configureRegisterBits reg mask v =
      Outcome.exited 1
        { s with
          wire := { s.wire.loaded s.device reg.val with
            tx := [reg.val, mergedByte (s.wire.regs reg.val % 256) mask v].take c
            faults := rest
            log := (s.wire.loaded s.device reg.val).log ++
              [WireEvent.beginTransmission s.device,
               WireEvent.write
                 [reg.val, mergedByte (s.wire.regs reg.val % 256) mask v] c] } } := by
  have h1 : s.wire.nextAccepted 1 = 1 := by
    unfold Wire.nextAccepted
    rw [hf]
  have htail : s.wire.faults.tail = c :: rest := by rw [hf]; rfl
  have hread := readRegister_accepted s reg h1 hrx
  rw [htail] at hread
  have h2 : (Wire.nextAccepted
      { s.wire.loaded s.device reg.val with faults := c :: rest } 2) ≠ 2 := hc
  unfold IOExpanderMCP23X17.configureRegisterBits
  rw [hread]
  simp only [Outcome.andThen]
  exact writeRegister_refused
    { s with wire := { s.wire.loaded s.device reg.val with faults := c :: rest } }
    reg (mergedByte (s.wire.regs reg.val % 256) mask v) h2

theorem byte_eq_of_bits (x y : Nat) (hx : x < 256) (hy : y < 256)
    (h : ∀ i, i < 8 → x.testBit i = y.testBit i) : x = y := by
  apply Nat.eq_of_testBit_eq
  intro i
  by_cases hi : i < 8
  · exact h i hi
  · have h8 : 8 ≤ i := Nat.le_of_not_lt hi
    rw [testBit_of_lt_256 x i hx h8, testBit_of_lt_256 y i hy h8]

theorem writeRegister_device (s : IOExpanderMCP23X17) (reg : Register) (v : Nat) :
    (s.writeRegister reg v).state.device = s.device := by
  by_cases h : s.wire.nextAccepted 2 = 2
  · rw [writeRegister_accepted s reg v h]
    rfl
  · rw [writeRegister_refused s reg v h]
    rfl

theorem readRegister_device (s : IOExpanderMCP23X17) (reg : Register) :
    (s.readRegister reg).state.device = s.device := by
  by_cases h : s.wire.nextAccepted 1 = 1
  · cases s with
    | mk d w =>
      cases w with
      | mk regs pointer trace tx rx busy faults log =>
        cases faults with
        | nil => rfl
        | cons c rest =>
          have hc : c = 1 := h
          subst hc
          rfl
  · rw [readRegister_refused s reg h]
    rfl

theorem Outcome.andThen_device {α β : Type} (o : Outcome α)
    (f : α → IOExpanderMCP23X17 → Outcome β) (d : Nat)
    (ho : o.state.device = d)
    (hf : ∀ v s1, (f v s1).state.device = s1.device) :
    (o.andThen f).state.device = d := by
  cases o with
  | returned v s1 =>
    show (f v s1).state.device = d
    rw [hf v s1]
    exact ho
  | exited c s1 => exact ho

theorem configureRegisterBits_device (s : IOExpanderMCP23X17) (reg : Register)
    (mask v : Nat) : (s.configureRegisterBits reg mask v).state.device = s.device := by
  unfold IOExpanderMCP23X17.configureRegisterBits
  apply Outcome.andThen_device _ _ _ (readRegister_device s reg)
  intro n s1
  exact writeRegister_device s1 reg _

theorem digitalRead_device (s : IOExpanderMCP23X17) (p : Nat) :
    (s.digitalRead p).state.device = s.device := by
  unfold IOExpanderMCP23X17.digitalRead
  apply Outcome.andThen_device _ _ _ (readRegister_device s _)
  intro n s1
  rfl

theorem begin_device_step (a x : Nat) :
    (0x20 ||| (a &&& 0x07) ||| (x &&& 0x07)) % 256 = 0x20 ||| ((a ||| x) &&& 0x07) := by
  have h256 : (256 : Nat) = 2 ^ 8 := rfl
  have h7 : (0x07 : Nat) = 2 ^ 3 - 1 := rfl
  have h20 : (0x20 : Nat) = 2 ^ 5 := rfl
  apply Nat.eq_of_testBit_eq
  intro i
  rw [h256, h7, h20]
  simp only [Nat.testBit_mod_two_pow, Nat.testBit_or, Nat.testBit_and,
    Nat.testBit_two_pow_sub_one, Nat.testBit_two_pow]
  by_cases h3 : i < 3
  · have h8 : i < 8 := by omega
    have h5 : ¬ (5 = i) := by omega
    simp [h3, h8, h5]
  · by_cases h5 : 5 = i
    · subst h5
      simp
    · simp [h3, h5]

theorem selector_range (z : Nat) : 0x20 ≤ 0x20 ||| (z &&& 0x07) ∧ 0x20 ||| (z &&& 0x07) ≤ 0x27 := by
  have h : z &&& 0x07 ≤ 7 := Nat.and_le_right
  generalize z &&& 0x07 = y at h
  interval_cases y <;> decide

theorem foldl_or_testBit (sels : List Nat) :
    ∀ (a i : Nat), (sels.foldl (fun x y => x ||| y) a).testBit i = true ↔
      a.testBit i = true ∨ ∃ x ∈ sels, x.testBit i = true := by
  induction sels with
  | nil => intro a i; simp
  | cons y ys ih =>
    intro a i
    rw [List.foldl_cons, ih (a ||| y) i, Nat.testBit_or]
    simp only [Bool.or_eq_true, List.mem_cons]
    constructor
    · rintro ((h | h) | ⟨x, hx, h⟩)
      · exact Or.inl h
      · exact Or.inr ⟨y, Or.inl rfl, h⟩
      · exact Or.inr ⟨x, Or.inr hx, h⟩
    · rintro (h | ⟨x, hx | hx, h⟩)
      · exact Or.inl (Or.inl h)
      · subst hx
        exact Or.inl (Or.inr h)
      · exact Or.inr ⟨x, hx, h⟩

theorem beginAll_device (sels : List Nat) :
    ∀ (s : IOExpanderMCP23X17) (a : Nat), s.device = 0x20 ||| (a &&& 0x07) →
      (s.beginAll sels).device =
        0x20 ||| ((sels.foldl (fun x y => x ||| y) a) &&& 0x07) := by
  induction sels with
  | nil =>
    intro s a h
    exact h
  | cons y ys ih =>
    intro s a h
    show ((s.begin y).beginAll ys).device = _
    rw [List.foldl_cons]
    apply ih (s.begin y) (a ||| y)
    show (s.device ||| (y &&& 0x07)) % 256 = _
    rw [h]
    exact begin_device_step a y

theorem beginAll_log (sels : List Nat) :
    ∀ s : IOExpanderMCP23X17, (s.beginAll sels).wire.log =
      s.wire.log ++ List.replicate sels.length WireEvent.begin := by
  induction sels with
  | nil =>
    intro s
    simp [IOExpanderMCP23X17.beginAll]
  | cons y ys ih =>
    intro s
    show ((s.begin y).beginAll ys).wire.log = _
    rw [ih (s.begin y)]
    show s.wire.log ++ [WireEvent.begin] ++ _ = _
    simp [List.replicate_succ]

theorem configureRegisterBits_pin_bits (s : IOExpanderMCP23X17) (reg : Register)
    (p : Nat) (b : Bool) (h : s.wire.Ready) :
    ∃ s1, s.configureRegisterBits reg ((1 <<< (p % 8)) % 256)
        (if b then 0xff else 0x00) = Outcome.returned () s1 ∧
      s1.wire.Ready ∧
      (∀ x, x ≠ reg.val → s1.wire.regs x = s.wire.regs x) ∧
      s1.wire.regs reg.val < 256 ∧
      ∀ i, i < 8 → (s1.wire.regs reg.val).testBit i =
        if i = p % 8 then b else (s.wire.regs reg.val).testBit i := by
  obtain ⟨s1, h1, _, h3, h4, h5, h6, h7, _⟩ := configureRegisterBits_pin s reg p b h
  refine ⟨s1, h1, h3, h4, h7, ?_⟩
  intro i hi
  by_cases hip : i = p % 8
  · rw [if_pos hip, hip]
    exact h6
  · rw [if_neg hip]
    exact h5 i hi hip

/-! ## The claims -/

/-- C1: on a transport at rest, for every register, every 8-bit mask and
value and every 8-bit initial content `n0` of the register,
`configureRegisterBits` returns and leaves the register holding exactly
`(n0 & ~mask) | (value & mask)` as an 8-bit value; every bit outside the mask
is the bit of `n0` and every bit inside the mask is the bit of `value`. -/
theorem configureRegisterBits_merges (s : IOExpanderMCP23X17) (reg : Register)
    (mask value : Nat) (hready : s.wire.Ready) (hmask : mask < 256)
    (hvalue : value < 256) (hn0 : s.wire.regs reg.val < 256) :
    ∃ s1, s.configureRegisterBits reg mask value = Outcome.returned () s1 ∧
      s1.wire.regs reg.val =
        (s.wire.regs reg.val &&& (0xff ^^^ mask)) ||| (value &&& mask) ∧
      s1.wire.regs reg.val < 256 ∧
      ∀ i, (s1.wire.regs reg.val).testBit i =
        if mask.testBit i then value.testBit i
        else (s.wire.regs reg.val).testBit i := by
  have hbits : ∀ i, (mergedByte (s.wire.regs reg.val % 256) mask value).testBit i =
      if mask.testBit i then value.testBit i else (s.wire.regs reg.val).testBit i := by
    intro i
    rw [mergedByte_testBit _ _ _ _ hmask]
    by_cases hi : i < 8
    · simp [hi]
    · have h8 : 8 ≤ i := Nat.le_of_not_lt hi
      simp [hi, testBit_of_lt_256 _ i hvalue h8, testBit_of_lt_256 _ i hn0 h8]
  refine ⟨_, configureRegisterBits_ready s reg mask value hready, ?_, ?_, ?_⟩
  · show (if reg.val = reg.val then mergedByte (s.wire.regs reg.val % 256) mask value
      else _) = _
    rw [if_pos rfl]
    apply Nat.eq_of_testBit_eq
    intro i
    rw [hbits i]
    have h255 : (0xff : Nat) = 2 ^ 8 - 1 := rfl
    rw [h255]
    simp only [Nat.testBit_or, Nat.testBit_and, Nat.testBit_xor,
      Nat.testBit_two_pow_sub_one]
    by_cases hi : i < 8
    · cases hm : mask.testBit i <;> simp [hi]
    · have h8 : 8 ≤ i := Nat.le_of_not_lt hi
      simp [hi, testBit_of_lt_256 _ i hmask h8, testBit_of_lt_256 _ i hn0 h8]
  · show (if reg.val = reg.val then mergedByte (s.wire.regs reg.val % 256) mask value
      else _) < 256
    rw [if_pos rfl]
    exact mergedByte_lt _ _ _
  · intro i
    show (if reg.val = reg.val then mergedByte (s.wire.regs reg.val % 256) mask value
      else _).testBit i = _
    rw [if_pos rfl]
    exact hbits i

/-- Witness of C1 on the sample object: `GPIOA = 0x5a`, mask `0x0f`, value
`0x33` give `0x53`. -/
theorem configureRegisterBits_merges_witness :
    ∃ s1, sampleExpander.configureRegisterBits GPIOA 0x0f 0x33 =
        Outcome.returned () s1 ∧ s1.wire.regs 0x12 = 0x53 := by
  obtain ⟨s1, h1, h2, _, _⟩ :=
    configureRegisterBits_merges sampleExpander GPIOA 0x0f 0x33 ⟨rfl, rfl⟩
      (by decide) (by decide) (by decide)
  exact ⟨s1, h1, by rw [show (0x12 : Nat) = GPIOA.val from rfl, h2]; decide⟩

/-- C2: for every pin `p` in 0..15 and every boolean, on a transport at
rest, each of `pinMode`, `digitalWrite`, `setPinPullUp`, `setPinPolarity` and
`setPinInterrupt` returns having changed at most bit `p % 8` of the register
it targets: the seven sibling bits of that register and every other register
hold their pre-call values; and `digitalWrite(p, v)` leaves the result of
`digitalRead(q)` as it was for every other pin `q` in 0..15. -/
theorem pin_setters_change_one_bit (s : IOExpanderMCP23X17) (p : Nat) (b : Bool)
    (hready : s.wire.Ready) (hp : p < 16) :
    (s.pinMode p b).ChangesAtMostBit s (IO_EXP_PIN_TO_IODIR_REG p).val (p % 8) ∧
    (s.digitalWrite p b).ChangesAtMostBit s (IO_EXP_PIN_TO_GPIO_REG p).val (p % 8) ∧
    (s.setPinPullUp p b).ChangesAtMostBit s (IO_EXP_PIN_TO_GPPU_REG p).val (p % 8) ∧
    (s.setPinPolarity p b).ChangesAtMostBit s (IO_EXP_PIN_TO_IPOL_REG p).val (p % 8) ∧
    (s.setPinInterrupt p b).ChangesAtMostBit s
      (IO_EXP_PIN_TO_GPINTEN_REG p).val (p % 8) ∧
    ∃ s1, s.digitalWrite p b = Outcome.returned () s1 ∧
      ∀ q, q < 16 → q ≠ p →
        ∃ v sa sb, s.digitalRead q = Outcome.returned v sa ∧
          s1.digitalRead q = Outcome.returned v sb := by
  have frame : ∀ reg : Register,
      (s.configureRegisterBits reg ((1 <<< (p % 8)) % 256)
        (if b then 0xff else 0x00)).ChangesAtMostBit s reg.val (p % 8) := by
    intro reg
    obtain ⟨s1, h1, _, _, h4, h5, _⟩ := configureRegisterBits_pin s reg p b hready
    exact ⟨s1, h1, h4, h5⟩
  refine ⟨frame _, frame _, frame _, frame _, frame _, ?_⟩
  obtain ⟨s1, h1, _, h3, h4, h5, _⟩ :=
    configureRegisterBits_pin s (IO_EXP_PIN_TO_GPIO_REG p) p b hready
  refine ⟨s1, h1, ?_⟩
  intro q hq hne
  have e := digitalRead_ready s1 q h3
  have hq8 : q % 8 < 8 := Nat.mod_lt _ (by decide)
  have hsame : (s1.wire.regs (IO_EXP_PIN_TO_GPIO_REG q).val).testBit (q % 8) =
      (s.wire.regs (IO_EXP_PIN_TO_GPIO_REG q).val).testBit (q % 8) := by
    rcases gpio_reg_cases p q hp hq hne with hreg | ⟨hreg, hbit⟩
    · rw [h4 _ hreg]
    · rw [hreg, h5 _ hq8 hbit]
  rw [hsame] at e
  exact ⟨_, _, _, digitalRead_ready s q hready, e⟩

/-- Witness of C2 on the sample object with pin 3 driven high. -/
theorem pin_setters_change_one_bit_witness :
    (sampleExpander.digitalWrite 3 true).ChangesAtMostBit sampleExpander 0x12 3 :=
  (pin_setters_change_one_bit sampleExpander 3 true ⟨rfl, rfl⟩ (by decide)).2.1

/-- C3: round trip. For every pin `p` (0..15 included), on a transport at
rest and with nothing else writing to the chip, `digitalWrite(p, true)` returns and
the `digitalRead(p)` that follows returns `true`. -/
theorem digitalWrite_true_then_digitalRead (s : IOExpanderMCP23X17) (p : Nat)
    (hready : s.wire.Ready) :
    (∃ s1 s2, s.digitalWrite p true = Outcome.returned () s1 ∧
      s1.digitalRead p = Outcome.returned true s2) ∧
    ((s.digitalWrite p true).andThen fun _ s1 => s1.digitalRead p).value? =
      some true := by
  obtain ⟨s1, h1, _, h3, _, _, h6, _⟩ :=
    configureRegisterBits_pin s (IO_EXP_PIN_TO_GPIO_REG p) p true hready
  have e := digitalRead_ready s1 p h3
  rw [h6] at e
  have h1w : s.digitalWrite p true = Outcome.returned () s1 := h1
  refine ⟨⟨s1, _, h1w, e⟩, ?_⟩
  rw [h1w]
  simp only [Outcome.andThen]
  rw [e]
  rfl

/-- Witness of C3 on the sample object, pin 10 (bit 2 of `GPIOB`, which is
clear in `0xc3`). -/
theorem digitalWrite_true_then_digitalRead_witness :
    ((sampleExpander.digitalWrite 10 true).andThen
      fun _ s1 => s1.digitalRead 10).value? = some true :=
  (digitalWrite_true_then_digitalRead sampleExpander 10 ⟨rfl, rfl⟩).2

/-- C4: register resolution. For a pin in 0..7 the five pin-to-register
macros yield the port-A register of their category, for a pin in 8..15 the
port-B register; and on a transport at rest each pin-level operation returns
having accessed the register its macro resolves, and no other register. -/
theorem pin_register_resolution (s : IOExpanderMCP23X17) (p : Nat) (b : Bool)
    (hready : s.wire.Ready) :
    (p < 8 →
      IO_EXP_PIN_TO_GPIO_REG p = GPIOA ∧ IO_EXP_PIN_TO_IODIR_REG p = IODIRA ∧
      IO_EXP_PIN_TO_GPPU_REG p = GPPUA ∧ IO_EXP_PIN_TO_IPOL_REG p = IPOLA ∧
      IO_EXP_PIN_TO_GPINTEN_REG p = GPINTENA) ∧
    (8 ≤ p → p < 16 →
      IO_EXP_PIN_TO_GPIO_REG p = GPIOB ∧ IO_EXP_PIN_TO_IODIR_REG p = IODIRB ∧
      IO_EXP_PIN_TO_GPPU_REG p = GPPUB ∧ IO_EXP_PIN_TO_IPOL_REG p = IPOLB ∧
      IO_EXP_PIN_TO_GPINTEN_REG p = GPINTENB) ∧
    (s.digitalWrite p b).AccessesOnly s (IO_EXP_PIN_TO_GPIO_REG p).val ∧
    (s.digitalRead p).AccessesOnly s (IO_EXP_PIN_TO_GPIO_REG p).val ∧
    (s.pinMode p b).AccessesOnly s (IO_EXP_PIN_TO_IODIR_REG p).val ∧
    (s.setPinPullUp p b).AccessesOnly s (IO_EXP_PIN_TO_GPPU_REG p).val ∧
    (s.setPinPolarity p b).AccessesOnly s (IO_EXP_PIN_TO_IPOL_REG p).val ∧
    (s.setPinInterrupt p b).AccessesOnly s (IO_EXP_PIN_TO_GPINTEN_REG p).val := by
  have setter : ∀ reg : Register,
      (s.configureRegisterBits reg ((1 <<< (p % 8)) % 256)
        (if b then 0xff else 0x00)).AccessesOnly s reg.val := by
    intro reg
    obtain ⟨s1, h1, _, _, _, _, _, _, h8, _⟩ := configureRegisterBits_pin s reg p b hready
    refine ⟨(), s1, _, h1, h8, by simp, ?_⟩
    intro a ha
    simp only [List.mem_cons, List.mem_singleton, List.not_mem_nil, or_false] at ha
    rcases ha with rfl | rfl <;> rfl
  refine ⟨?_, ?_, setter _, ?_, setter _, setter _, setter _, setter _⟩
  · intro h
    simp [IO_EXP_PIN_TO_GPIO_REG, IO_EXP_PIN_TO_IODIR_REG, IO_EXP_PIN_TO_GPPU_REG,
      IO_EXP_PIN_TO_IPOL_REG, IO_EXP_PIN_TO_GPINTEN_REG, h]
  · intro h _
    have h8 : ¬ p < 8 := Nat.not_lt.mpr h
    simp [IO_EXP_PIN_TO_GPIO_REG, IO_EXP_PIN_TO_IODIR_REG, IO_EXP_PIN_TO_GPPU_REG,
      IO_EXP_PIN_TO_IPOL_REG, IO_EXP_PIN_TO_GPINTEN_REG, h8]
  · refine ⟨_, _, [Access.load (IO_EXP_PIN_TO_GPIO_REG p).val
        (s.wire.regs (IO_EXP_PIN_TO_GPIO_REG p).val)],
      digitalRead_ready s p hready, rfl, by simp, ?_⟩
    intro a ha
    simp only [List.mem_singleton] at ha
    subst ha
    rfl

/-- Witness of C4 on the sample object: pin 9 resolves to `GPIOB` and
`digitalWrite(9, true)` accesses the register at offset `0x13` only. -/
theorem pin_register_resolution_witness :
    IO_EXP_PIN_TO_GPIO_REG 9 = GPIOB ∧
      (sampleExpander.digitalWrite 9 true).AccessesOnly sampleExpander 0x13 :=
  have h := pin_register_resolution sampleExpander 9 true ⟨rfl, rfl⟩
  ⟨(h.2.1 (by decide) (by decide)).1, h.2.2.1⟩

/-- C5: for every pin value, the mask each pin-level setter passes to
`configureRegisterBits` as an `unsigned char` is `1 << (p % 8)` itself (the
conversion to 8 bits loses nothing), `digitalRead` tests the byte it read
against the same mask, and this mask is below 256 and has exactly one bit
set, at position `p % 8`. -/
theorem pin_mask_is_one_shifted (s : IOExpanderMCP23X17) (p : Nat) (b : Bool) :
    (1 <<< (p % 8)) % 256 = 1 <<< (p % 8) ∧
    1 <<< (p % 8) < 256 ∧
    (∀ i, (1 <<< (p % 8)).testBit i = decide (i = p % 8)) ∧
    s.pinMode p b = s.configureRegisterBits (IO_EXP_PIN_TO_IODIR_REG p)
      (1 <<< (p % 8)) (if b then 0xff else 0x00) ∧
    s.digitalWrite p b = s.configureRegisterBits (IO_EXP_PIN_TO_GPIO_REG p)
      (1 <<< (p % 8)) (if b then 0xff else 0x00) ∧
    s.setPinPullUp p b = s.configureRegisterBits (IO_EXP_PIN_TO_GPPU_REG p)
      (1 <<< (p % 8)) (if b then 0xff else 0x00) ∧
    s.setPinPolarity p b = s.configureRegisterBits (IO_EXP_PIN_TO_IPOL_REG p)
      (1 <<< (p % 8)) (if b then 0xff else 0x00) ∧
    s.setPinInterrupt p b = s.configureRegisterBits (IO_EXP_PIN_TO_GPINTEN_REG p)
      (1 <<< (p % 8)) (if b then 0xff else 0x00) ∧
    s.digitalRead p = (s.readRegister (IO_EXP_PIN_TO_GPIO_REG p)).andThen
      fun n s1 => Outcome.returned (decide ((n &&& (1 <<< (p % 8))) ≠ 0)) s1 := by
  have hmask : (1 <<< (p % 8)) % 256 = 1 <<< (p % 8) := by
    rw [pinMask_eq, Nat.one_shiftLeft]
  refine ⟨hmask, ?_, ?_, ?_, ?_, ?_, ?_, ?_, rfl⟩
  · rw [Nat.one_shiftLeft]
    exact pinMask_lt p
  · intro i
    rw [Nat.one_shiftLeft, Nat.testBit_two_pow]
    by_cases h : i = p % 8
    · simp [h]
    · have : ¬ (p % 8 = i) := fun e => h e.symm
      simp [h, this]
  · show s.configureRegisterBits _ ((1 <<< (p % 8)) % 256) _ = _
    rw [hmask]
  · show s.configureRegisterBits _ ((1 <<< (p % 8)) % 256) _ = _
    rw [hmask]
  · show s.configureRegisterBits _ ((1 <<< (p % 8)) % 256) _ = _
    rw [hmask]
  · show s.configureRegisterBits _ ((1 <<< (p % 8)) % 256) _ = _
    rw [hmask]
  · show s.configureRegisterBits _ ((1 <<< (p % 8)) % 256) _ = _
    rw [hmask]

/-- C6: for every selector, `begin(selector)` on a freshly constructed object
(address `0x20`) leaves the bus address `0x20 | (selector & 0x07)` and calls
the transport's `begin()` once; `begin(0x05)` gives `0x25` and `begin(0xff)`
gives `0x27`. -/
theorem begin_on_fresh_handle (w : Wire) (selector : Nat) :
    (IOExpanderMCP23X17.new w).device = 0x20 ∧
    ((IOExpanderMCP23X17.new w).begin selector).device =
      0x20 ||| (selector &&& 0x07) ∧
    ((IOExpanderMCP23X17.new w).begin selector).wire.log =
      w.log ++ [WireEvent.begin] ∧
    ((IOExpanderMCP23X17.new w).begin selector).wire.regs = w.regs ∧
    ((IOExpanderMCP23X17.new w).begin 0x05).device = 0x25 ∧
    ((IOExpanderMCP23X17.new w).begin 0xff).device = 0x27 := by
  refine ⟨rfl, ?_, rfl, rfl,
    show (0x20 ||| (0x05 &&& 0x07)) % 256 = 0x25 by decide,
    show (0x20 ||| (0xff &&& 0x07)) % 256 = 0x27 by decide⟩
  show (0x20 ||| (selector &&& 0x07)) % 256 = 0x20 ||| (selector &&& 0x07)
  apply Nat.mod_eq_of_lt
  have h1 : selector &&& 7 ≤ 7 := Nat.and_le_right
  have h2 : (0x20 ||| (selector &&& 0x07)) < 2 ^ 8 :=
    Nat.or_lt_two_pow (by decide) (by omega)
  exact h2

/-- C7: for every port and every byte `b`, on a transport at rest,
`portWrite(port, b)` followed by `portRead(port)` returns `b`; the chip
serves exactly two register accesses, first the store of `b` and then one
load, both at the port's GPIO register, so no read precedes the write; the
calls made on the transport are one two-byte write frame followed by the
address frame and one-byte request of the read. -/
theorem portWrite_then_portRead (s : IOExpanderMCP23X17) (port : Port) (b : Nat)
    (hready : s.wire.Ready) (hb : b < 256) :
    ∃ s1 s2, s.portWrite port b = Outcome.returned () s1 ∧
      s1.portRead port = Outcome.returned b s2 ∧
      s1.wire.trace = s.wire.trace ++ [Access.store port.val b] ∧
      s2.wire.trace = s.wire.trace ++
        [Access.store port.val b, Access.load port.val b] ∧
      s1.wire.log = s.wire.log ++
        [WireEvent.beginTransmission s.device, WireEvent.write [port.val, b] 2,
         WireEvent.endTransmission] ∧
      s2.wire.log = s1.wire.log ++
        [WireEvent.beginTransmission s.device, WireEvent.write [port.val] 1,
         WireEvent.endTransmission, WireEvent.requestFrom s.device 1]
        ++ List.replicate s.wire.busy (WireEvent.available false)
        ++ [WireEvent.available true, WireEvent.read b] := by
  have hval : port.toRegister.val = port.val := by cases port <;> rfl
  have hw := writeRegister_ready s port.toRegister b hready.1
  have hr := readRegister_ready
    { s with wire := s.wire.stored s.device port.toRegister.val b }
    port.toRegister ⟨hready.1, hready.2⟩
  have hbyte : (s.wire.stored s.device port.toRegister.val b).regs
      port.toRegister.val = b := by
    show (if port.toRegister.val = port.toRegister.val then b else _) = b
    rw [if_pos rfl]
  rw [hbyte, Nat.mod_eq_of_lt hb] at hr
  refine ⟨_, _, hw, hr, ?_, ?_, ?_, ?_⟩
  · show s.wire.trace ++ [Access.store port.toRegister.val b] = _
    rw [hval]
  · show s.wire.trace ++ [Access.store port.toRegister.val b] ++
      [Access.load port.toRegister.val
        ((s.wire.stored s.device port.toRegister.val b).regs port.toRegister.val)] = _
    rw [hbyte, hval]
    simp
  · show s.wire.log ++ [WireEvent.beginTransmission s.device,
      WireEvent.write [port.toRegister.val, b] 2, WireEvent.endTransmission] = _
    rw [hval]
  · show (s.wire.stored s.device port.toRegister.val b).log ++
      [WireEvent.beginTransmission s.device, WireEvent.write [port.toRegister.val] 1,
        WireEvent.endTransmission, WireEvent.requestFrom s.device 1]
      ++ List.replicate s.wire.busy (WireEvent.available false)
      ++ [WireEvent.available true, WireEvent.read
        ((s.wire.stored s.device port.toRegister.val b).regs port.toRegister.val)] = _
    rw [hbyte, hval]

/-- Witness of C7 on the sample object: `portWrite(PORT_A, 0xaa)` then
`portRead(PORT_A)` returns `0xaa` with one store and one load at `0x12`. -/
theorem portWrite_then_portRead_witness :
    ∃ s1 s2, sampleExpander.portWrite PORT_A 0xaa = Outcome.returned () s1 ∧
      s1.portRead PORT_A = Outcome.returned 0xaa s2 ∧
      s2.wire.trace = [Access.store 0x12 0xaa, Access.load 0x12 0xaa] := by
  obtain ⟨s1, s2, h1, h2, _, h4, _⟩ :=
    portWrite_then_portRead sampleExpander PORT_A 0xaa ⟨rfl, rfl⟩ (by decide)
  exact ⟨s1, s2, h1, h2, h4⟩

/-- C8: for every pin `p` (0..15 included) and every boolean `isInput`, on a
transport at rest, `pinMode(p, isInput)` returns and bit `p % 8` of the
owning direction register (`IODIRA` for `p < 8`, `IODIRB` otherwise) equals
`isInput` (1 means input, 0 means output); `pinMode(3, true)` on
`IODIRA = 0x00` leaves `IODIRA = 0x08`. -/
theorem pinMode_sets_direction_bit (s : IOExpanderMCP23X17) (p : Nat)
    (isInput : Bool) (hready : s.wire.Ready) :
    ∃ s1, s.pinMode p isInput = Outcome.returned () s1 ∧
      (s1.wire.regs (if p < 8 then IODIRA else IODIRB).val).testBit (p % 8) =
        isInput ∧
      (p = 3 → isInput = true → s.wire.regs IODIRA.val = 0x00 →
        s1.wire.regs IODIRA.val = 0x08) := by
  obtain ⟨s1, h1, _, _, _, _, h6, _, _, h9⟩ :=
    configureRegisterBits_pin s (IO_EXP_PIN_TO_IODIR_REG p) p isInput hready
  refine ⟨s1, h1, h6, ?_⟩
  intro h3 ht h0
  subst h3 ht
  have h9a : s1.wire.regs IODIRA.val =
      mergedByte (s.wire.regs IODIRA.val % 256) (2 ^ (3 % 8)) 0xff := h9
  rw [h9a, h0]
  decide

/-- Witness of C8 on the sample object, whose `IODIRA` holds `0x00`:
`pinMode(3, true)` leaves `IODIRA = 0x08`. -/
theorem pinMode_sets_direction_bit_witness :
    ∃ s1, sampleExpander.pinMode 3 true = Outcome.returned () s1 ∧
      s1.wire.regs 0x00 = 0x08 := by
  obtain ⟨s1, h1, _, h3⟩ :=
    pinMode_sets_direction_bit sampleExpander 3 true ⟨rfl, rfl⟩
  exact ⟨s1, h1, h3 rfl rfl rfl⟩

/-- C9: for every pin `p` (0..15 included), on a transport at rest, `digitalRead(p)`
returns, and returns true exactly when bit `p % 8` of the owning GPIO
register (`GPIOA` for `p < 8`, `GPIOB` otherwise) is set; the answer is the
same in any other state in which that bit is the same; the call leaves
every register as it was and the chip serves a single load and no store;
with `GPIOA = 0xff`, `digitalRead(3)` returns true. -/
theorem digitalRead_returns_pin_bit (s : IOExpanderMCP23X17) (p : Nat)
    (hready : s.wire.Ready) :
    ∃ v s1, s.digitalRead p = Outcome.returned v s1 ∧
      (v = true ↔
        (s.wire.regs (if p < 8 then GPIOA else GPIOB).val).testBit (p % 8) = true) ∧
      (∀ t : IOExpanderMCP23X17, t.wire.Ready →
        (t.wire.regs (if p < 8 then GPIOA else GPIOB).val).testBit (p % 8) =
          (s.wire.regs (if p < 8 then GPIOA else GPIOB).val).testBit (p % 8) →
        ∃ t1, t.digitalRead p = Outcome.returned v t1) ∧
      s1.wire.regs = s.wire.regs ∧
      s1.wire.trace = s.wire.trace ++
        [Access.load (if p < 8 then GPIOA else GPIOB).val
          (s.wire.regs (if p < 8 then GPIOA else GPIOB).val)] ∧
      (p = 3 → s.wire.regs GPIOA.val = 0xff → v = true) := by
  refine ⟨_, _, digitalRead_ready s p hready, Iff.rfl, ?_, rfl, rfl, ?_⟩
  · intro t ht hbit
    have e := digitalRead_ready t p ht
    have hbit1 : (t.wire.regs (IO_EXP_PIN_TO_GPIO_REG p).val).testBit (p % 8) =
        (s.wire.regs (IO_EXP_PIN_TO_GPIO_REG p).val).testBit (p % 8) := hbit
    rw [hbit1] at e
    exact ⟨_, e⟩
  · intro h3 hff
    subst h3
    show (s.wire.regs GPIOA.val).testBit (3 % 8) = true
    rw [hff]
    decide

/-- Witness of C9 on the scenario of the spec: with `IODIRA = 0x08` and
`GPIOA = 0xff`, `digitalRead(3)` returns true. -/
theorem digitalRead_returns_pin_bit_witness :
    scenarioWire.regs 0x00 = 0x08 ∧ scenarioWire.regs 0x12 = 0xff ∧
      ∃ s1, (IOExpanderMCP23X17.new scenarioWire).digitalRead 3 =
        Outcome.returned true s1 := by
  obtain ⟨v, s1, h1, _, _, _, _, h6⟩ :=
    digitalRead_returns_pin_bit (IOExpanderMCP23X17.new scenarioWire) 3 ⟨rfl, rfl⟩
  have hv : v = true := h6 rfl rfl
  subst hv
  exact ⟨rfl, rfl, s1, h1⟩

/-- C10: for every port and every byte `m`, on a transport that accepts the
bytes it is given, `portMode(port, m)` returns after one two-byte write frame
and no read request; the chip serves one store and no load; afterwards the
port's direction register (`IODIRA` for `PORT_A`, `IODIRB` for `PORT_B`)
holds exactly `m` whatever it held before, and every other register,
the port's GPIO register included, is unchanged. -/
theorem portMode_writes_direction_register (s : IOExpanderMCP23X17) (port : Port)
    (m : Nat) (haccept : s.wire.faults = []) (hm : m < 256) :
    ∃ s1, s.portMode port m = Outcome.returned () s1 ∧
      s1.wire.log = s.wire.log ++
        [WireEvent.beginTransmission s.device,
         WireEvent.write [(if port = PORT_A then IODIRA else IODIRB).val, m] 2,
         WireEvent.endTransmission] ∧
      s1.wire.trace = s.wire.trace ++
        [Access.store (if port = PORT_A then IODIRA else IODIRB).val m] ∧
      s1.wire.regs (if port = PORT_A then IODIRA else IODIRB).val = m ∧
      s1.wire.regs (if port = PORT_A then IODIRA else IODIRB).val < 256 ∧
      (∀ x, x ≠ (if port = PORT_A then IODIRA else IODIRB).val →
        s1.wire.regs x = s.wire.regs x) ∧
      s1.wire.regs port.val = s.wire.regs port.val := by
  have hreg : (if (IO_EXP_PORT_TO_IODIR_REG port).val = (IO_EXP_PORT_TO_IODIR_REG port).val
      then m else s.wire.regs (IO_EXP_PORT_TO_IODIR_REG port).val) = m := if_pos rfl
  refine ⟨_, writeRegister_ready s (IO_EXP_PORT_TO_IODIR_REG port) m haccept,
    rfl, rfl, hreg, ?_, ?_, ?_⟩
  · show (if (IO_EXP_PORT_TO_IODIR_REG port).val = (IO_EXP_PORT_TO_IODIR_REG port).val
      then m else s.wire.regs (IO_EXP_PORT_TO_IODIR_REG port).val) < 256
    rw [hreg]
    exact hm
  · intro x hx
    exact if_neg hx
  · show (if port.val = (IO_EXP_PORT_TO_IODIR_REG port).val then m
      else s.wire.regs port.val) = _
    have hne : port.val ≠ (IO_EXP_PORT_TO_IODIR_REG port).val := by
      cases port <;> decide
    rw [if_neg hne]

/-- Witness of C10 on the sample object: `portMode(PORT_B, 0x0f)` leaves
`IODIRB = 0x0f` and `GPIOB = 0xc3`. -/
theorem portMode_writes_direction_register_witness :
    ∃ s1, sampleExpander.portMode PORT_B 0x0f = Outcome.returned () s1 ∧
      s1.wire.regs 0x01 = 0x0f ∧ s1.wire.regs 0x13 = 0xc3 := by
  obtain ⟨s1, h1, _, _, h4, _, _, h6⟩ :=
    portMode_writes_direction_register sampleExpander PORT_B 0x0f rfl (by decide)
  exact ⟨s1, h1, h4, h6⟩

/-- C11: for every pin `p` (0..15 included) and every boolean `e`, on a
transport at rest, `setPinPullUp(p, e)`, `setPinPolarity(p, e)` and
`setPinInterrupt(p, e)` each return with bit `p % 8` equal to `e` in,
respectively, the pull-up register (`GPPUA`/`GPPUB`), the polarity register
(`IPOLA`/`IPOLB`) and the interrupt-enable register (`GPINTENA`/`GPINTENB`)
of the half that owns `p`; every other register is left as it was and the
chip is accessed at that one register only. -/
theorem feature_setters_set_pin_bit (s : IOExpanderMCP23X17) (p : Nat) (e : Bool)
    (hready : s.wire.Ready) :
    (s.setPinPullUp p e).SetsPinBit s (if p < 8 then GPPUA else GPPUB).val
      (p % 8) e ∧
    (s.setPinPolarity p e).SetsPinBit s (if p < 8 then IPOLA else IPOLB).val
      (p % 8) e ∧
    (s.setPinInterrupt p e).SetsPinBit s
      (if p < 8 then GPINTENA else GPINTENB).val (p % 8) e := by
  have setter : ∀ reg : Register,
      (s.configureRegisterBits reg ((1 <<< (p % 8)) % 256)
        (if e then 0xff else 0x00)).SetsPinBit s reg.val (p % 8) e := by
    intro reg
    obtain ⟨s1, h1, _, _, h4, _, h6, _, h8, _⟩ :=
      configureRegisterBits_pin s reg p e hready
    exact ⟨s1, h1, h6, h4, h8⟩
  exact ⟨setter (IO_EXP_PIN_TO_GPPU_REG p), setter (IO_EXP_PIN_TO_IPOL_REG p),
    setter (IO_EXP_PIN_TO_GPINTEN_REG p)⟩

/-- Witness of C11 on the sample object: `setPinPolarity(12, true)` sets bit 4
of `IPOLB` (offset `0x03`). -/
theorem feature_setters_set_pin_bit_witness :
    (sampleExpander.setPinPolarity 12 true).SetsPinBit sampleExpander 0x03 4 true :=
  (feature_setters_set_pin_bit sampleExpander 12 true ⟨rfl, rfl⟩).2.1

/-- C12: for every register and byte `v`, a `writeRegister(reg, v)` that
returns has made exactly these calls on the transport: `beginTransmission`
with the object's current bus address, one `write` of the two bytes
`[offset of reg, v]` in that order, of which two were accepted, and
`endTransmission`; there is no read request, and the chip serves one store;
it does return whenever the transport accepts the two bytes. -/
theorem writeRegister_emits_one_frame (s : IOExpanderMCP23X17) (reg : Register)
    (v : Nat) :
    (∀ s1, s.writeRegister reg v = Outcome.returned () s1 →
      s1.wire.log = s.wire.log ++
        [WireEvent.beginTransmission s.device, WireEvent.write [reg.val, v] 2,
         WireEvent.endTransmission] ∧
      s1.wire.trace = s.wire.trace ++ [Access.store reg.val v] ∧
      s1.device = s.device) ∧
    (s.wire.nextAccepted 2 = 2 →
      ∃ s1, s.writeRegister reg v = Outcome.returned () s1) ∧
    (s.wire.faults = [] → ∃ s1, s.writeRegister reg v = Outcome.returned () s1) := by
  refine ⟨?_, ?_, ?_⟩
  · intro s1 h
    by_cases hacc : s.wire.nextAccepted 2 = 2
    · rw [writeRegister_accepted s reg v hacc] at h
      injection h with _ hs
      subst hs
      exact ⟨rfl, rfl, rfl⟩
    · rw [writeRegister_refused s reg v hacc] at h
      exact Outcome.noConfusion h
  · intro hacc
    exact ⟨_, writeRegister_accepted s reg v hacc⟩
  · intro hf
    exact ⟨_, writeRegister_ready s reg v hf⟩

/-- C13: for every register and every number `k` of polls the transport
leaves unanswered, on a transport at rest whose chip holds a byte in the
register, `readRegister(reg)` returns that byte after exactly these calls:
one write frame to the object's bus address carrying the single byte
`offset of reg`, one request of one byte from the same address, `k` polls of
`available()` answered false and one answered true, and one `read()`, which
delivers the byte returned. Any number of polls above `k` lets the wait loop
end in the same state. -/
theorem readRegister_polls_then_returns (s : IOExpanderMCP23X17) (reg : Register)
    (k : Nat) (hready : s.wire.Ready) (hk : s.wire.busy = k)
    (hbyte : s.wire.regs reg.val < 256) :
    (∃ s1, s.readRegister reg = Outcome.returned (s.wire.regs reg.val) s1 ∧
      s1.wire.log = s.wire.log ++
        [WireEvent.beginTransmission s.device, WireEvent.write [reg.val] 1,
         WireEvent.endTransmission, WireEvent.requestFrom s.device 1]
        ++ List.replicate k (WireEvent.available false)
        ++ [WireEvent.available true, WireEvent.read (s.wire.regs reg.val)] ∧
      s1.wire.trace = s.wire.trace ++
        [Access.load reg.val (s.wire.regs reg.val)] ∧
      s1.wire.regs = s.wire.regs) ∧
    ∀ fuel, k < fuel →
      Wire.awaitAvailable fuel s.wire = Wire.awaitAvailable (k + 1) s.wire ∧
      (Wire.awaitAvailable fuel s.wire).log = s.wire.log ++
        List.replicate k (WireEvent.available false) ++ [WireEvent.available true] := by
  refine ⟨?_, ?_⟩
  · have h := readRegister_ready s reg hready
    rw [Nat.mod_eq_of_lt hbyte] at h
    refine ⟨_, h, ?_, rfl, rfl⟩
    subst hk
    rfl
  · intro fuel hfuel
    rw [Wire.awaitAvailable_enough k fuel s.wire hk hfuel,
      Wire.awaitAvailable_enough k (k + 1) s.wire hk (Nat.lt_succ_self k)]
    exact ⟨rfl, rfl⟩

/-- Witness of C13 on the sample object, whose transport leaves two polls
unanswered: `readRegister(GPIOB)` returns `0xc3`. -/
theorem readRegister_polls_then_returns_witness :
    ∃ s1, sampleExpander.readRegister GPIOB = Outcome.returned 0xc3 s1 ∧
      s1.wire.log =
        [WireEvent.beginTransmission 0x20, WireEvent.write [0x13] 1,
         WireEvent.endTransmission, WireEvent.requestFrom 0x20 1,
         WireEvent.available false, WireEvent.available false,
         WireEvent.available true, WireEvent.read 0xc3] := by
  obtain ⟨⟨s1, h1, h2, _⟩, _⟩ :=
    readRegister_polls_then_returns sampleExpander GPIOB 2 ⟨rfl, rfl⟩ rfl (by decide)
  exact ⟨s1, h1, h2⟩

/-- Witness of C12 on the sample object: `writeRegister(OLATA, 0x81)` returns
after one frame to address `0x20` carrying `[0x14, 0x81]`. -/
theorem writeRegister_emits_one_frame_witness :
    ∃ s1, sampleExpander.writeRegister OLATA 0x81 = Outcome.returned () s1 ∧
      s1.wire.log =
        [WireEvent.beginTransmission 0x20, WireEvent.write [0x14, 0x81] 2,
         WireEvent.endTransmission] := by
  have h := writeRegister_emits_one_frame sampleExpander OLATA 0x81
  obtain ⟨s1, h1⟩ := h.2.2 rfl
  exact ⟨s1, h1, (h.1 s1 h1).1⟩

/-- C14: with `exit(1)` as a failure result, `writeRegister` fails whenever the
transport reports an accepted count other than 2 (fewer than 2 in
particular) and `readRegister` fails whenever it reports a count other than
1 for the address byte (0 in particular). At the failure the last call made
on the transport is the `write` itself: `endTransmission` has not been
called, nothing has been requested or read, and the chip has seen nothing.
When the transport reports exactly 2, respectively 1, the call returns. -/
theorem short_write_is_fatal (s : IOExpanderMCP23X17) (reg : Register) (v : Nat) :
    (s.wire.nextAccepted 2 ≠ 2 →
      ∃ s1, s.writeRegister reg v = Outcome.exited 1 s1 ∧
        s1.wire.log = s.wire.log ++
          [WireEvent.beginTransmission s.device,
           WireEvent.write [reg.val, v] (s.wire.nextAccepted 2)] ∧
        s1.wire.regs = s.wire.regs ∧ s1.wire.trace = s.wire.trace) ∧
    (s.wire.nextAccepted 1 ≠ 1 →
      ∃ s1, s.readRegister reg = Outcome.exited 1 s1 ∧
        s1.wire.log = s.wire.log ++
          [WireEvent.beginTransmission s.device,
           WireEvent.write [reg.val] (s.wire.nextAccepted 1)] ∧
        s1.wire.regs = s.wire.regs ∧ s1.wire.trace = s.wire.trace ∧
        s1.wire.rx = s.wire.rx) ∧
    (s.wire.nextAccepted 2 = 2 →
      ∃ s1, s.writeRegister reg v = Outcome.returned () s1) ∧
    (s.wire.nextAccepted 1 = 1 →
      ∃ b s1, s.readRegister reg = Outcome.returned b s1) := by
  refine ⟨?_, ?_, ?_, ?_⟩
  · intro h
    exact ⟨_, writeRegister_refused s reg v h, rfl, rfl, rfl⟩
  · intro h
    exact ⟨_, readRegister_refused s reg h, rfl, rfl, rfl, rfl⟩
  · intro h
    exact ⟨_, writeRegister_accepted s reg v h⟩
  · intro h
    exact readRegister_returns s reg h

/-- Witness of C14: on a transport that accepts one byte of the two,
`writeRegister(GPIOA, 0x55)` stops in `exit(1)` right after the `write`
call; on a transport that accepts nothing, `readRegister(GPIOA)` does. -/
theorem short_write_is_fatal_witness :
    (∃ s1, (IOExpanderMCP23X17.new shortWriteWire).writeRegister GPIOA 0x55 =
        Outcome.exited 1 s1 ∧
      s1.wire.log =
        [WireEvent.beginTransmission 0x20, WireEvent.write [0x12, 0x55] 1]) ∧
    (∃ s1, (IOExpanderMCP23X17.new deafWire).readRegister GPIOA =
        Outcome.exited 1 s1 ∧
      s1.wire.log = [WireEvent.beginTransmission 0x20, WireEvent.write [0x12] 0]) := by
  obtain ⟨s1, h1, h2, _⟩ :=
    (short_write_is_fatal (IOExpanderMCP23X17.new shortWriteWire) GPIOA 0x55).1
      (by decide)
  obtain ⟨s2, h3, h4, _⟩ :=
    (short_write_is_fatal (IOExpanderMCP23X17.new deafWire) GPIOA 0x55).2.1
      (by decide)
  exact ⟨⟨s1, h1, h2⟩, ⟨s2, h3, h4⟩⟩

/-- C15: if the read sub-step of `configureRegisterBits` fails (the transport
does not report the address byte accepted), the whole call fails, the chip
serves no access and no two-byte write is attempted, so every register holds
its pre-call value. If the read succeeds and the write sub-step fails (the
transport reports a count other than 2 for the second `write`), the whole
call fails as well, after one load and no store: every register still holds
its pre-call value, the transport sees the one refused `write` and nothing
after it. -/
theorem configureRegisterBits_fails_with_substep (s : IOExpanderMCP23X17)
    (reg : Register) (mask v : Nat) :
    (s.wire.nextAccepted 1 ≠ 1 →
      ∃ s1, s.configureRegisterBits reg mask v = Outcome.exited 1 s1 ∧
        s1.wire.regs = s.wire.regs ∧ s1.wire.trace = s.wire.trace ∧
        s1.wire.log = s.wire.log ++
          [WireEvent.beginTransmission s.device,
           WireEvent.write [reg.val] (s.wire.nextAccepted 1)]) ∧
    (∀ c rest, s.wire.faults = 1 :: c :: rest → c ≠ 2 → s.wire.rx = [] →
      ∃ s1, s.configureRegisterBits reg mask v = Outcome.exited 1 s1 ∧
        s1.wire.regs = s.wire.regs ∧
        s1.wire.trace = s.wire.trace ++
          [Access.load reg.val (s.wire.regs reg.val)] ∧
        s1.wire.log = (s.wire.loaded s.device reg.val).log ++
          [WireEvent.beginTransmission s.device,
           WireEvent.write
             [reg.val, mergedByte (s.wire.regs reg.val % 256) mask v] c] ∧
        s1.wire.faults = rest) := by
  refine ⟨?_, ?_⟩
  · intro h
    exact ⟨_, configureRegisterBits_read_refused s reg mask v h, rfl, rfl, rfl⟩
  · intro c rest hf hc hrx
    exact ⟨_, configureRegisterBits_write_refused s reg mask v c rest hf hc hrx,
      rfl, rfl, rfl, rfl⟩

/-- Witness of C15: on a transport that accepts nothing the call on `GPIOA`
fails with the chip untouched; on a transport that accepts the address byte
and then one byte of two it fails after one load, `GPIOA` still `0x5a`. -/
theorem configureRegisterBits_fails_with_substep_witness :
    (∃ s1, (IOExpanderMCP23X17.new deafWire).configureRegisterBits GPIOA 0x0f 0x33 =
        Outcome.exited 1 s1 ∧ s1.wire.trace = []) ∧
    (∃ s1, (IOExpanderMCP23X17.new lateFaultWire).configureRegisterBits GPIOA 0x0f
          0x33 = Outcome.exited 1 s1 ∧
      s1.wire.regs 0x12 = 0x5a ∧ s1.wire.trace = [Access.load 0x12 0x5a]) := by
  obtain ⟨s1, h1, _, h2, _⟩ :=
    (configureRegisterBits_fails_with_substep (IOExpanderMCP23X17.new deafWire)
      GPIOA 0x0f 0x33).1 (by decide)
  obtain ⟨s2, h3, h4, h5, _⟩ :=
    (configureRegisterBits_fails_with_substep (IOExpanderMCP23X17.new lateFaultWire)
      GPIOA 0x0f 0x33).2 1 [] rfl (by decide) rfl
  exact ⟨⟨s1, h1, h2⟩, ⟨s2, h3, by rw [h4]; rfl, h5⟩⟩

/-- C16: the `Register` enumeration assigns the offsets of the documented
register map: `IODIRA/B = 0x00/0x01`, `IPOLA/B = 0x02/0x03`,
`GPINTENA/B = 0x04/0x05`, `DEFVALA/B = 0x06/0x07`, `INTCONA/B = 0x08/0x09`,
`IOCON = 0x0a`, `GPPUA/B = 0x0c/0x0d`, `INTFA/B = 0x0e/0x0f`,
`INTCAPA/B = 0x10/0x11`, `GPIOA/B = 0x12/0x13`, `OLATA/B = 0x14/0x15`; the
enumeration has 21 members, whose offsets are pairwise distinct and at most
`0x15`; `PORT_A` and `PORT_B` have the values of `GPIOA` and `GPIOB`, and
`portWrite` / `portRead` are `writeRegister` / `readRegister` on `GPIOA` or
`GPIOB`. -/
theorem register_map_offsets :
    (IODIRA.val = 0x00 ∧ IODIRB.val = 0x01 ∧ IPOLA.val = 0x02 ∧ IPOLB.val = 0x03 ∧
      GPINTENA.val = 0x04 ∧ GPINTENB.val = 0x05 ∧ DEFVALA.val = 0x06 ∧
      DEFVALB.val = 0x07 ∧ INTCONA.val = 0x08 ∧ INTCONB.val = 0x09 ∧
      IOCON.val = 0x0a ∧ GPPUA.val = 0x0c ∧ GPPUB.val = 0x0d ∧ INTFA.val = 0x0e ∧
      INTFB.val = 0x0f ∧ INTCAPA.val = 0x10 ∧ INTCAPB.val = 0x11 ∧
      GPIOA.val = 0x12 ∧ GPIOB.val = 0x13 ∧ OLATA.val = 0x14 ∧ OLATB.val = 0x15) ∧
    (∀ r : Register, r ∈ Register.all) ∧
    Register.all.length = 21 ∧
    (Register.all.map Register.val).Nodup ∧
    (∀ r1 r2 : Register, r1.val = r2.val → r1 = r2) ∧
    (∀ r : Register, r.val ≤ 0x15) ∧
    PORT_A.val = 0x12 ∧ PORT_B.val = 0x13 ∧
    (∀ port : Port, port.toRegister.val = port.val) ∧
    (∀ (s : IOExpanderMCP23X17) (v : Nat),
      s.portWrite PORT_A v = s.writeRegister GPIOA v ∧
      s.portWrite PORT_B v = s.writeRegister GPIOB v ∧
      s.portRead PORT_A = s.readRegister GPIOA ∧
      s.portRead PORT_B = s.readRegister GPIOB) := by
  refine ⟨by decide, ?_, rfl, by decide, ?_, ?_, rfl, rfl, ?_, ?_⟩
  · intro r
    cases r <;> decide
  · intro r1 r2 h
    cases r1 <;> cases r2 <;> first | rfl | exact absurd h (by decide)
  · intro r
    cases r <;> decide
  · intro port
    cases port <;> rfl
  · intro s v
    exact ⟨rfl, rfl, rfl, rfl⟩

/-- C17: no pin-level operation validates its pin index. For every pin value
`p` in 16..255 (which passes unchanged as an `unsigned char`), each of
`pinMode`, `digitalWrite`, `digitalRead`, `setPinPullUp`, `setPinPolarity`
and `setPinInterrupt` is the same call as with the port-B pin `8 + p % 8` and
resolves the port-B register of its category. On a transport at rest no call
is rejected: each of the five setters returns with bit `p % 8` of its port-B
register (`IODIRB`, `GPIOB`, `GPPUB`, `IPOLB`, `GPINTENB`) equal to its
argument, the seven sibling bits and every other register unchanged, after
one load and one store at that register; `digitalRead(p)` returns bit
`p % 8` of `GPIOB` after one load at `GPIOB`. So `digitalWrite(19, true)`
sets bit 3 of `GPIOB`. -/
theorem out_of_range_pin_wraps (s : IOExpanderMCP23X17) (p : Nat) (b : Bool)
    (hp : 16 ≤ p) (hmax : p ≤ 255) :
    p % 256 = p ∧
    (s.pinMode p b = s.pinMode (8 + p % 8) b ∧
      s.digitalWrite p b = s.digitalWrite (8 + p % 8) b ∧
      s.digitalRead p = s.digitalRead (8 + p % 8) ∧
      s.setPinPullUp p b = s.setPinPullUp (8 + p % 8) b ∧
      s.setPinPolarity p b = s.setPinPolarity (8 + p % 8) b ∧
      s.setPinInterrupt p b = s.setPinInterrupt (8 + p % 8) b) ∧
    (IO_EXP_PIN_TO_IODIR_REG p = IODIRB ∧ IO_EXP_PIN_TO_GPIO_REG p = GPIOB ∧
      IO_EXP_PIN_TO_GPPU_REG p = GPPUB ∧ IO_EXP_PIN_TO_IPOL_REG p = IPOLB ∧
      IO_EXP_PIN_TO_GPINTEN_REG p = GPINTENB) ∧
    (s.wire.Ready →
      ((s.pinMode p b).SetsPinBit s IODIRB.val (p % 8) b ∧
        (s.pinMode p b).ChangesAtMostBit s IODIRB.val (p % 8)) ∧
      ((s.digitalWrite p b).SetsPinBit s GPIOB.val (p % 8) b ∧
        (s.digitalWrite p b).ChangesAtMostBit s GPIOB.val (p % 8)) ∧
      ((s.setPinPullUp p b).SetsPinBit s GPPUB.val (p % 8) b ∧
        (s.setPinPullUp p b).ChangesAtMostBit s GPPUB.val (p % 8)) ∧
      ((s.setPinPolarity p b).SetsPinBit s IPOLB.val (p % 8) b ∧
        (s.setPinPolarity p b).ChangesAtMostBit s IPOLB.val (p % 8)) ∧
      ((s.setPinInterrupt p b).SetsPinBit s GPINTENB.val (p % 8) b ∧
        (s.setPinInterrupt p b).ChangesAtMostBit s GPINTENB.val (p % 8)) ∧
      (∃ s1, s.digitalRead p =
          Outcome.returned ((s.wire.regs GPIOB.val).testBit (p % 8)) s1 ∧
        s1.wire.trace = s.wire.trace ++
          [Access.load GPIOB.val (s.wire.regs GPIOB.val)] ∧
        s1.wire.regs = s.wire.regs) ∧
      (p = 19 → b = true →
        ∃ s1, s.digitalWrite 19 true = Outcome.returned () s1 ∧
          (s1.wire.regs GPIOB.val).testBit 3 = true)) := by
  have h8 : ¬ p < 8 := by omega
  have h8w : ¬ 8 + p % 8 < 8 := by omega
  have hbit : (8 + p % 8) % 8 = p % 8 := by omega
  have hio : IO_EXP_PIN_TO_IODIR_REG p = IODIRB := if_neg h8
  have hgp : IO_EXP_PIN_TO_GPIO_REG p = GPIOB := if_neg h8
  have hpu : IO_EXP_PIN_TO_GPPU_REG p = GPPUB := if_neg h8
  have hpo : IO_EXP_PIN_TO_IPOL_REG p = IPOLB := if_neg h8
  have hin : IO_EXP_PIN_TO_GPINTEN_REG p = GPINTENB := if_neg h8
  have hiow : IO_EXP_PIN_TO_IODIR_REG (8 + p % 8) = IODIRB := if_neg h8w
  have hgpw : IO_EXP_PIN_TO_GPIO_REG (8 + p % 8) = GPIOB := if_neg h8w
  have hpuw : IO_EXP_PIN_TO_GPPU_REG (8 + p % 8) = GPPUB := if_neg h8w
  have hpow : IO_EXP_PIN_TO_IPOL_REG (8 + p % 8) = IPOLB := if_neg h8w
  have hinw : IO_EXP_PIN_TO_GPINTEN_REG (8 + p % 8) = GPINTENB := if_neg h8w
  refine ⟨Nat.mod_eq_of_lt (Nat.lt_succ_of_le hmax), ⟨?_, ?_, ?_, ?_, ?_, ?_⟩,
    ⟨hio, hgp, hpu, hpo, hin⟩, ?_⟩
  · unfold IOExpanderMCP23X17.pinMode
    rw [hio, hiow, hbit]
  · unfold IOExpanderMCP23X17.digitalWrite
    rw [hgp, hgpw, hbit]
  · unfold IOExpanderMCP23X17.digitalRead
    rw [hgp, hgpw, hbit]
  · unfold IOExpanderMCP23X17.setPinPullUp
    rw [hpu, hpuw, hbit]
  · unfold IOExpanderMCP23X17.setPinPolarity
    rw [hpo, hpow, hbit]
  · unfold IOExpanderMCP23X17.setPinInterrupt
    rw [hin, hinw, hbit]
  · intro hready
    have setter : ∀ reg : Register,
        (s.configureRegisterBits reg ((1 <<< (p % 8)) % 256)
          (if b then 0xff else 0x00)).SetsPinBit s reg.val (p % 8) b ∧
        (s.configureRegisterBits reg ((1 <<< (p % 8)) % 256)
          (if b then 0xff else 0x00)).ChangesAtMostBit s reg.val (p % 8) := by
      intro reg
      obtain ⟨s1, h1, _, _, h4, h5, h6, _, h8, _⟩ :=
        configureRegisterBits_pin s reg p b hready
      exact ⟨⟨s1, h1, h6, h4, h8⟩, ⟨s1, h1, h4, h5⟩⟩
    have hmode : s.pinMode p b = s.configureRegisterBits IODIRB
        ((1 <<< (p % 8)) % 256) (if b then 0xff else 0x00) := by
      unfold IOExpanderMCP23X17.pinMode
      rw [hio]
    have hwrite : s.digitalWrite p b = s.configureRegisterBits GPIOB
        ((1 <<< (p % 8)) % 256) (if b then 0xff else 0x00) := by
      unfold IOExpanderMCP23X17.digitalWrite
      rw [hgp]
    have hpull : s.setPinPullUp p b = s.configureRegisterBits GPPUB
        ((1 <<< (p % 8)) % 256) (if b then 0xff else 0x00) := by
      unfold IOExpanderMCP23X17.setPinPullUp
      rw [hpu]
    have hpol : s.setPinPolarity p b = s.configureRegisterBits IPOLB
        ((1 <<< (p % 8)) % 256) (if b then 0xff else 0x00) := by
      unfold IOExpanderMCP23X17.setPinPolarity
      rw [hpo]
    have hint : s.setPinInterrupt p b = s.configureRegisterBits GPINTENB
        ((1 <<< (p % 8)) % 256) (if b then 0xff else 0x00) := by
      unfold IOExpanderMCP23X17.setPinInterrupt
      rw [hin]
    have hread := digitalRead_ready s p hready
    rw [hgp] at hread
    refine ⟨?_, ?_, ?_, ?_, ?_, ⟨_, hread, rfl, rfl⟩, ?_⟩
    · rw [hmode]
      exact setter IODIRB
    · rw [hwrite]
      exact setter GPIOB
    · rw [hpull]
      exact setter GPPUB
    · rw [hpol]
      exact setter IPOLB
    · rw [hint]
      exact setter GPINTENB
    · intro h19 hb
      subst h19 hb
      obtain ⟨s1, h1, h2, _⟩ := (setter GPIOB).1
      rw [← hwrite] at h1
      exact ⟨s1, h1, h2⟩

/-- Witness of C17 on the sample object: `digitalWrite(19, true)` is
`digitalWrite(11, true)` and sets bit 3 of `GPIOB`; `pinMode(19, true)` sets
bit 3 of `IODIRB`; `digitalRead(23)` reads bit 7 of `GPIOB = 0xc3`. -/
theorem out_of_range_pin_wraps_witness :
    sampleExpander.digitalWrite 19 true = sampleExpander.digitalWrite 11 true ∧
      (sampleExpander.digitalWrite 19 true).SetsPinBit sampleExpander 0x13 3 true ∧
      (sampleExpander.pinMode 19 true).SetsPinBit sampleExpander 0x01 3 true ∧
      ∃ s1, sampleExpander.digitalRead 23 = Outcome.returned true s1 := by
  have h := out_of_range_pin_wraps sampleExpander 19 true (by decide) (by decide)
  have hr := h.2.2.2 ⟨rfl, rfl⟩
  have h23 := (out_of_range_pin_wraps sampleExpander 23 true (by decide)
    (by decide)).2.2.2 ⟨rfl, rfl⟩
  obtain ⟨s1, h1, _⟩ := h23.2.2.2.2.2.1
  have hv : (sampleExpander.wire.regs GPIOB.val).testBit (23 % 8) = true := by decide
  rw [hv] at h1
  exact ⟨h.2.1.2.1, hr.2.1.1, hr.1.1, s1, h1⟩

/-- C18: no register content is cached. On a transport at rest every call of
`pinMode`, `digitalWrite`, `setPinPullUp`, `setPinPolarity` or
`setPinInterrupt` performs exactly one register read followed by exactly one
register write, both on the register of its category, also when the
targeted bit already has the requested value (the unchanged byte is written
back); every `digitalRead` and `portRead` performs exactly one register read
and no write. And no operation other than `begin` changes the bus address,
whether it returns or stops in `exit(1)`. -/
theorem no_register_caching (s : IOExpanderMCP23X17) (p : Nat) (b : Bool)
    (port : Port) (reg : Register) (mask v : Nat) :
    (s.wire.Ready →
      (s.pinMode p b).ReadsThenWrites s (IO_EXP_PIN_TO_IODIR_REG p).val (p % 8) b ∧
      (s.digitalWrite p b).ReadsThenWrites s
        (IO_EXP_PIN_TO_GPIO_REG p).val (p % 8) b ∧
      (s.setPinPullUp p b).ReadsThenWrites s
        (IO_EXP_PIN_TO_GPPU_REG p).val (p % 8) b ∧
      (s.setPinPolarity p b).ReadsThenWrites s
        (IO_EXP_PIN_TO_IPOL_REG p).val (p % 8) b ∧
      (s.setPinInterrupt p b).ReadsThenWrites s
        (IO_EXP_PIN_TO_GPINTEN_REG p).val (p % 8) b ∧
      (s.digitalRead p).ReadsOnce s (IO_EXP_PIN_TO_GPIO_REG p).val ∧
      (s.portRead port).ReadsOnce s port.val) ∧
    ((s.pinMode p b).state.device = s.device ∧
      (s.portMode port v).state.device = s.device ∧
      (s.digitalWrite p b).state.device = s.device ∧
      (s.digitalRead p).state.device = s.device ∧
      (s.portWrite port v).state.device = s.device ∧
      (s.portRead port).state.device = s.device ∧
      (s.setPinPullUp p b).state.device = s.device ∧
      (s.setPinPolarity p b).state.device = s.device ∧
      (s.setPinInterrupt p b).state.device = s.device ∧
      (s.configureRegisterBits reg mask v).state.device = s.device ∧
      (s.writeRegister reg v).state.device = s.device ∧
      (s.readRegister reg).state.device = s.device) := by
  refine ⟨?_, ⟨configureRegisterBits_device s _ _ _, writeRegister_device s _ _,
    configureRegisterBits_device s _ _ _, digitalRead_device s p,
    writeRegister_device s _ _, readRegister_device s _,
    configureRegisterBits_device s _ _ _, configureRegisterBits_device s _ _ _,
    configureRegisterBits_device s _ _ _, configureRegisterBits_device s _ _ _,
    writeRegister_device s _ _, readRegister_device s _⟩⟩
  intro hready
  have setter : ∀ r : Register,
      (s.configureRegisterBits r ((1 <<< (p % 8)) % 256)
        (if b then 0xff else 0x00)).ReadsThenWrites s r.val (p % 8) b := by
    intro r
    obtain ⟨s1, h1, _, _, _, h5, h6, h7, h8, _⟩ :=
      configureRegisterBits_pin s r p b hready
    refine ⟨s1, _, h1, h8, ?_⟩
    intro hbit hbyte
    apply byte_eq_of_bits _ _ h7 hbyte
    intro i hi
    by_cases hip : i = p % 8
    · rw [hip, h6, hbit]
    · exact h5 i hi hip
  have hval : port.toRegister.val = port.val := by cases port <;> rfl
  refine ⟨setter _, setter _, setter _, setter _, setter _,
    ⟨_, _, digitalRead_ready s p hready, rfl, rfl⟩, ?_⟩
  refine ⟨_, _, readRegister_ready s port.toRegister hready, ?_, rfl⟩
  show s.wire.trace ++ [Access.load port.toRegister.val
    (s.wire.regs port.toRegister.val)] = _
  rw [hval]

/-- Witness of C18 on the sample object: `digitalWrite(1, true)` finds bit 1
of `GPIOA = 0x5a` already set and still performs the read and the write. -/
theorem no_register_caching_witness :
    ∃ s1, sampleExpander.digitalWrite 1 true = Outcome.returned () s1 ∧
      s1.wire.trace = [Access.load 0x12 0x5a, Access.store 0x12 0x5a] := by
  obtain ⟨s1, n1, h1, h2, h3⟩ :=
    ((no_register_caching sampleExpander 1 true PORT_A GPIOA 0 0).1 ⟨rfl, rfl⟩).2.1
  have hn : n1 = 0x5a := h3 (by decide) (by decide)
  subst hn
  exact ⟨s1, h1, h2⟩

/-- C19: `begin` accumulates the selector instead of replacing it. For an
object constructed once and then given `begin(s1)`, ..., `begin(sk)`, the bus
address is `0x20 | ((s1 | ... | sk) & 0x07)`; it lies in `0x20..0x27`; every
one of the three low bits set in some selector is set in the address, and a
further `begin` clears no bit of the address; the transport's `begin()` has
been called once per call. So `begin(1)` then `begin(2)` gives `0x23`, which
is not `0x20 | (2 & 0x07) = 0x22`. -/
theorem begin_accumulates_selectors (w : Wire) (selectors : List Nat) :
    ((IOExpanderMCP23X17.new w).beginAll selectors).device =
      0x20 ||| ((selectors.foldl (fun x y => x ||| y) 0) &&& 0x07) ∧
    0x20 ≤ ((IOExpanderMCP23X17.new w).beginAll selectors).device ∧
    ((IOExpanderMCP23X17.new w).beginAll selectors).device ≤ 0x27 ∧
    (∀ x ∈ selectors, ∀ i, i < 3 → x.testBit i = true →
      (((IOExpanderMCP23X17.new w).beginAll selectors).device).testBit i = true) ∧
    (∀ x i, (((IOExpanderMCP23X17.new w).beginAll selectors).device).testBit i = true →
      ((((IOExpanderMCP23X17.new w).beginAll selectors).begin x).device).testBit i
        = true) ∧
    ((IOExpanderMCP23X17.new w).beginAll selectors).wire.log =
      w.log ++ List.replicate selectors.length WireEvent.begin ∧
    ((IOExpanderMCP23X17.new w).beginAll [1, 2]).device = 0x23 ∧
    ((IOExpanderMCP23X17.new w).beginAll [1, 2]).device ≠ 0x20 ||| (2 &&& 0x07) := by
  have hdev := beginAll_device selectors (IOExpanderMCP23X17.new w) 0 rfl
  have hrange := selector_range (selectors.foldl (fun x y => x ||| y) 0)
  have h12 : ((IOExpanderMCP23X17.new w).beginAll [1, 2]).device = 0x23 :=
    show ((0x20 ||| (1 &&& 0x07)) % 256 ||| (2 &&& 0x07)) % 256 = 0x23 by decide
  refine ⟨hdev, ?_, ?_, ?_, ?_, beginAll_log selectors _, h12, ?_⟩
  · rw [hdev]
    exact hrange.1
  · rw [hdev]
    exact hrange.2
  · intro x hx i hi hbit
    have h7 : (0x07 : Nat) = 2 ^ 3 - 1 := rfl
    rw [hdev, Nat.testBit_or, Nat.testBit_and, h7, Nat.testBit_two_pow_sub_one]
    have hfold : (selectors.foldl (fun x y => x ||| y) 0).testBit i = true :=
      (foldl_or_testBit selectors 0 i).mpr (Or.inr ⟨x, hx, hbit⟩)
    simp [hfold, hi]
  · intro x i hbit
    have h256 : (256 : Nat) = 2 ^ 8 := rfl
    have hlt : ((IOExpanderMCP23X17.new w).beginAll selectors).device < 256 := by
      rw [hdev]
      exact Nat.lt_of_le_of_lt hrange.2 (by decide)
    have hi : i < 8 := by
      by_contra hge
      rw [testBit_of_lt_256 _ i hlt (Nat.le_of_not_lt hge)] at hbit
      exact Bool.false_ne_true hbit
    show ((((IOExpanderMCP23X17.new w).beginAll selectors).device |||
      (x &&& 0x07)) % 256).testBit i = true
    rw [h256, Nat.testBit_mod_two_pow, Nat.testBit_or, hbit]
    simp [hi]
  · rw [h12]
    decide

/-- C20: writes to distinct pins commute and `digitalWrite` is idempotent.
For all pins `p ≠ q` in 0..15 and all booleans `a`, `b`, on a transport at
rest, `digitalWrite(p, a)` followed by `digitalWrite(q, b)` and
`digitalWrite(q, b)` followed by `digitalWrite(p, a)` all return and leave the
same register file, whether or not `p` and `q` share a register; and a
second `digitalWrite(p, a)` leaves the register file as the first left it. -/
theorem digitalWrite_commutes_and_is_idempotent (s : IOExpanderMCP23X17)
    (p q : Nat) (a b : Bool) (hready : s.wire.Ready) (hp : p < 16) (hq : q < 16)
    (hne : p ≠ q) :
    ∃ s1 s2 t1 t2 u,
      s.digitalWrite p a = Outcome.returned () s1 ∧
      s1.digitalWrite q b = Outcome.returned () s2 ∧
      s.digitalWrite q b = Outcome.returned () t1 ∧
      t1.digitalWrite p a = Outcome.returned () t2 ∧
      s2.wire.regs = t2.wire.regs ∧
      s1.digitalWrite p a = Outcome.returned () u ∧
      u.wire.regs = s1.wire.regs := by
  obtain ⟨s1, e1, r1, A1, D1, B1⟩ :=
    configureRegisterBits_pin_bits s (IO_EXP_PIN_TO_GPIO_REG p) p a hready
  obtain ⟨s2, e2, _, A2, D2, B2⟩ :=
    configureRegisterBits_pin_bits s1 (IO_EXP_PIN_TO_GPIO_REG q) q b r1
  obtain ⟨t1, e3, r3, A3, D3, B3⟩ :=
    configureRegisterBits_pin_bits s (IO_EXP_PIN_TO_GPIO_REG q) q b hready
  obtain ⟨t2, e4, _, A4, D4, B4⟩ :=
    configureRegisterBits_pin_bits t1 (IO_EXP_PIN_TO_GPIO_REG p) p a r3
  obtain ⟨u, e5, _, A5, D5, B5⟩ :=
    configureRegisterBits_pin_bits s1 (IO_EXP_PIN_TO_GPIO_REG p) p a r1
  refine ⟨s1, s2, t1, t2, u, e1, e2, e3, e4, ?_, e5, ?_⟩
  · funext x
    rcases gpio_reg_cases p q hp hq (Ne.symm hne) with hreg | ⟨hreg, hbit⟩
    · by_cases hxp : x = (IO_EXP_PIN_TO_GPIO_REG p).val
      · rw [hxp, A2 _ (Ne.symm hreg)]
        apply byte_eq_of_bits _ _ D1 D4
        intro i hi
        rw [B1 i hi, B4 i hi, A3 _ (Ne.symm hreg)]
      · by_cases hxq : x = (IO_EXP_PIN_TO_GPIO_REG q).val
        · rw [hxq, A4 _ hreg]
          apply byte_eq_of_bits _ _ D2 D3
          intro i hi
          rw [B2 i hi, B3 i hi, A1 _ hreg]
        · rw [A2 x hxq, A1 x hxp, A4 x hxp, A3 x hxq]
    · rw [hreg] at A2 D2 B2 A3 D3 B3
      by_cases hx : x = (IO_EXP_PIN_TO_GPIO_REG p).val
      · rw [hx]
        apply byte_eq_of_bits _ _ D2 D4
        intro i hi
        rw [B2 i hi, B4 i hi, B1 i hi, B3 i hi]
        by_cases h1 : i = q % 8
        · have h2 : ¬ i = p % 8 := fun h => hbit (h1.symm.trans h)
          rw [if_pos h1, if_neg h2, if_pos h1]
        · rw [if_neg h1, if_neg h1]
      · rw [A2 x hx, A1 x hx, A4 x hx, A3 x hx]
  · funext x
    by_cases hx : x = (IO_EXP_PIN_TO_GPIO_REG p).val
    · rw [hx]
      apply byte_eq_of_bits _ _ D5 D1
      intro i hi
      rw [B5 i hi, B1 i hi]
      by_cases h1 : i = p % 8
      · rw [if_pos h1, if_pos h1]
      · rw [if_neg h1]
    · exact A5 x hx

/-- Witness of C20 on the sample object: pins 1 and 6 share `GPIOA`, and the
two orders of `digitalWrite(1, false)` and `digitalWrite(6, false)` leave the
same register file. -/
theorem digitalWrite_commutes_and_is_idempotent_witness :
    ∃ s1 s2 t1 t2,
      sampleExpander.digitalWrite 1 false = Outcome.returned () s1 ∧
      s1.digitalWrite 6 false = Outcome.returned () s2 ∧
      sampleExpander.digitalWrite 6 false = Outcome.returned () t1 ∧
      t1.digitalWrite 1 false = Outcome.returned () t2 ∧
      s2.wire.regs = t2.wire.regs := by
  obtain ⟨s1, s2, t1, t2, _, h1, h2, h3, h4, h5, _⟩ :=
    digitalWrite_commutes_and_is_idempotent sampleExpander 1 6 false false
      ⟨rfl, rfl⟩ (by decide) (by decide) (by decide)
  exact ⟨s1, s2, t1, t2, h1, h2, h3, h4, h5⟩

end MCP23X17
